import Mathlib

/-!
Verification of the zoopla-scraper core logic: the consolidated field
extractor (`fields_extractor.extract_from_html`), the 6-month crime
aggregator (`uk_police_api.generate_recent_months`,
`uk_police_api.aggregate_6month_crime`) and the crime-summary
matcher/merger embedded in `real_estate_data_pipeline.run_crime_data_step`.

Modelling conventions:
* Python dicts (which preserve insertion order, update existing keys in
  place and append new keys at the end) are modelled as association lists
  with the operations `upd`, `setdefault` and `getv`.
* Python strings are Lean `String`s; helpers (`pyStrip`, `pyLower`,
  `stripCommas`) are implemented structurally on the character list so that
  they compute by kernel reduction.
* Python truthiness of an optional string (None and the empty string are
  falsy) is modelled by `tval`, and the `a or b` idiom on strings by `pyOr`
  with the empty string standing for a missing/falsy value.
* Floats are modelled as rationals; `round(x, 5)` is modelled by `round5`
  (exact half-up rounding; no claim exercises a representation tie).
-/

namespace Zoopla

/-- Model of Python `d[k] = v` on an insertion-ordered dict: an existing key
keeps its position and gets the new value, a new key is appended at the
end. -/
def upd {κ β : Type} [DecidableEq κ] : List (κ × β) → κ → β → List (κ × β)
  | [], k, v => [(k, v)]
  | p :: m, k, v => if p.1 = k then (k, v) :: m else p :: upd m k v

/-- Model of Python `d.get(k)`. -/
def getv {κ β : Type} [DecidableEq κ] : List (κ × β) → κ → Option β
  | [], _ => none
  | p :: m, k => if p.1 = k then some p.2 else getv m k

/-- Model of Python `d.setdefault(k, v)`: a no-op whenever the key is
present, even with a falsy value. -/
def setdefault {κ β : Type} [DecidableEq κ] :
    List (κ × β) → κ → β → List (κ × β)
  | [], k, v => [(k, v)]
  | p :: m, k, v => if p.1 = k then p :: m else p :: setdefault m k v

/-- Conditionally set a key from an optional value (the `if x: out[k] = x`
and single-key `out.update(...)` patterns of the source). -/
def updIfSome (m : List (String × String)) (k : String) :
    Option String → List (String × String)
  | some v => upd m k v
  | none => m

/-- Keys of the association list, in insertion order. -/
def keysOf {κ β : Type} (m : List (κ × β)) : List κ := m.map Prod.fst

/-! ## String helpers (Python `str` methods, implemented structurally) -/

/-- Python `s.strip()`. -/
def pyStrip (s : String) : String :=
  String.mk (((s.data.dropWhile Char.isWhitespace).reverse.dropWhile
    Char.isWhitespace).reverse)

/-- Python `s.lower()`. -/
def pyLower (s : String) : String :=
  String.mk (s.data.map Char.toLower)

/-- Python `s.replace(",", "")`. -/
def stripCommas (s : String) : String :=
  String.mk (s.data.filter (fun c => !(c == ',')))

/-- Python `a or b` on strings, where the empty string is the falsy value. -/
def pyOr (a b : String) : String := if a = "" then b else a

/-- Python truthiness of an optional string: None and `""` are falsy. -/
def tval : Option String → Option String
  | some s => if s = "" then none else some s
  | none => none

/-! ## `fields_extractor._norm_money`

The regex `£?\s*(\d+(?:\.\d+)?)` searched over the stripped, comma-free
string: the captured group is the leftmost digit run, extended by a decimal
part when a dot followed by a digit follows it. -/

/-- The optional decimal part following the integer digit run: present only
when a dot immediately followed by a digit comes next. -/
def decimalPart (rest : List Char) : List Char :=
  match rest with
  | c2 :: d :: _ =>
    if c2 = '.' ∧ d.isDigit then '.' :: (rest.drop 1).takeWhile Char.isDigit
    else []
  | _ => []

/-- Try to match the money pattern at the current position: an optional `£`,
then any whitespace, then at least one digit (the captured group), then an
optional decimal part. -/
def moneyAt (l : List Char) : Option (List Char) :=
  let l1 := match l with
    | c :: rest => if c = '£' then rest else l
    | [] => l
  let l2 := l1.dropWhile Char.isWhitespace
  match l2 with
  | c :: _ =>
    if c.isDigit then
      some (l2.takeWhile Char.isDigit ++ decimalPart (l2.dropWhile Char.isDigit))
    else none
  | [] => none

/-- Leftmost match of the money pattern (the scan of `re.search`). -/
def moneySearch : List Char → Option (List Char)
  | [] => none
  | c :: rest =>
    match moneyAt (c :: rest) with
    | some r => some r
    | none => moneySearch rest

/-- `fields_extractor._norm_money`. -/
def norm_money (val : String) : Option String :=
  if val = "" then none
  else (moneySearch (stripCommas (pyStrip val)).data).map String.mk

/-- The final `out["price"] = _norm_money(out["price"]) or out["price"]`
step: the normalised price when the normaliser produced a (truthy) value,
otherwise the original string. -/
def moneyNorm (p : String) : String := pyOr ((norm_money p).getD "") p

/-! ## `fields_extractor.extract_from_html`

The raw document is modelled by the outcome of its embedded-JSON parses
(`__ZAD_TARGETING__` ad-targeting block, `application/ld+json` block), the
html-wide station/school extraction results, and the derived visible text
(`_textify`).  Every string field of the ad-targeting block holds the
string coercion the source applies, with `""` standing for an absent or
falsy JSON value; the three flag fields are `Option`s because the source
tests key presence (`"has_epc" in zad_json`), not truthiness.  The
visible-text rules (regex extractors `_extract_status`, `_extract_epc_rating`,
…) are opaque text matchers, modelled as an arbitrary bundle of functions of
the chosen text. -/

/-- Parsed `__ZAD_TARGETING__` JSON (layer 1). -/
structure ZadJson where
  listing_id : String
  price_actual : String
  price : String
  property_type : String
  tenure : String
  num_beds : String
  num_baths : String
  num_recepts : String
  has_epc : Option String
  has_floorplan : Option String
  size_sq_feet : String
  display_address : String
  outcode : String
  branch_name : String
  brand_name : String
  chain_free : Option String
deriving DecidableEq

/-- Parsed schema.org `ld+json` block (layer 2): the price carried by a
dict-valued `offers` object (`""` when absent or falsy) and the `name`
field. -/
structure LdJson where
  offers_price : String
  name : String
deriving DecidableEq

/-- A raw document: parse outcomes of the embedded blocks (`none` models
both a missing block and a `json.loads` failure swallowed by the source),
the html-wide extraction results of `_extract_nearest_stations` and
`_extract_schools`, and the `_textify` rendering of the html. -/
structure Html where
  zad : Option ZadJson
  ld : Option LdJson
  nearest_stations : Option String
  nearest_stations_distances : Option String
  nearest_schools : Option String
  derived_text : String
deriving DecidableEq

/-- The visible-text rule set: one opaque matcher per regex extractor of the
source, each a function of the chosen text. -/
structure TextRules where
  status : String → Option String
  photos : String → Option String
  floorplans : String → Option String
  epc : String → Option String
  address : String → Option String
  beds : String → Option String
  baths : String → Option String
  recepts : String → Option String
  floor_area : String → Option Nat
  price_per_sqft : String → Option Nat
  tenure : String → Option String
  agent : String → Option String
  council_tax_band : String → Option String
  ground_rent : String → Option String
  rooms : String → List (String × String)
  listed : String → Option (String × String)
  sold : String → Option (String × String)
  about : String → Option String

/-- The `visible_text` argument: absent (None), a string, or a non-string
value. -/
inductive VisibleText where
  | absent
  | str (s : String)
  | notStr
deriving DecidableEq

/-- The text selection of lines 314-318: the provided rendering is used only
when it is a string whose strip is truthy, otherwise the text derived from
the html. -/
def chooseTxt (h : Html) (v : VisibleText) : String :=
  match v with
  | .str s => if pyStrip s ≠ "" then s else h.derived_text
  | _ => h.derived_text

/-- Layer 1: the single `out.update({...})` from the ad-targeting JSON, in
dict-literal order. -/
def zadLayer (z? : Option ZadJson) (out : List (String × String)) :
    List (String × String) :=
  match z? with
  | none => out
  | some z =>
    let out := upd out "listing_id" z.listing_id
    let out := upd out "price" (pyOr z.price_actual z.price)
    let out := upd out "property_type" (pyStrip z.property_type)
    let out := upd out "tenure" (pyLower (pyStrip z.tenure))
    let out := upd out "bedrooms" z.num_beds
    let out := upd out "bathrooms" z.num_baths
    let out := upd out "receptions" z.num_recepts
    let out := upd out "has_epc" (z.has_epc.getD "")
    let out := upd out "has_floorplan" (z.has_floorplan.getD "")
    let out := upd out "size_sq_feet" z.size_sq_feet
    let out := upd out "display_address" z.display_address
    let out := upd out "outcode" z.outcode
    let out := upd out "agent" (pyOr z.branch_name z.brand_name)
    upd out "chain_free" (z.chain_free.getD "")

/-- Layer 2: the ld+json block; a truthy offers price overwrites `price`, a
truthy name sets `title`. -/
def ldLayer (l? : Option LdJson) (out : List (String × String)) :
    List (String × String) :=
  match l? with
  | none => out
  | some l =>
    let out := if l.offers_price ≠ "" then upd out "price" l.offers_price
      else out
    if l.name ≠ "" then upd out "title" l.name else out

/-- Lines 382-385: a truthy EPC rating letter sets `epc_rating` and
`setdefault`s the `has_epc` flag to `"True"`. -/
def updEpc (out : List (String × String)) (o : Option String) :
    List (String × String) :=
  match o with
  | some e => setdefault (upd out "epc_rating" e) "has_epc" "True"
  | none => out

/-- Lines 393-395: a truthy floor area overwrites `size_sq_feet`. -/
def updFloorArea (out : List (String × String)) (o : Option Nat) :
    List (String × String) :=
  match o with
  | some n => if n ≠ 0 then upd out "size_sq_feet" (toString n) else out
  | none => out

/-- Lines 397-399: a non-None price-per-square-foot sets `price_per_sqft`. -/
def updPpsf (out : List (String × String)) (o : Option Nat) :
    List (String × String) :=
  match o with
  | some n => upd out "price_per_sqft" (toString n)
  | none => out

/-- The timeline pattern: a matched date/price pair sets two fixed keys. -/
def updPair (out : List (String × String)) (k1 k2 : String)
    (o : Option (String × String)) : List (String × String) :=
  match o with
  | some dp => upd (upd out k1 dp.1) k2 dp.2
  | none => out

/-- Line 410: the synthetic room-dimension fields, keyed by the slugified
room name. -/
def roomsFold (out : List (String × String)) (lst : List (String × String)) :
    List (String × String) :=
  lst.foldl (fun m p => upd m ("room_" ++ p.1 ++ "_m") p.2) out

/-- Layers 3-4: enrichment from the visible text and the html-wide station
and school results, in source order (lines 375-414). -/
def visibleLayer (R : TextRules) (txt : String) (h : Html)
    (out : List (String × String)) : List (String × String) :=
  let out := updIfSome out "status" (tval (R.status txt))
  let out := updIfSome out "number_of_photos" (R.photos txt)
  let out := updIfSome out "number_of_floorplans" (R.floorplans txt)
  let out := updEpc out (tval (R.epc txt))
  let out := updIfSome out "address" (tval (R.address txt))
  let out := updIfSome out "bedrooms" (R.beds txt)
  let out := updIfSome out "bathrooms" (R.baths txt)
  let out := updIfSome out "receptions" (R.recepts txt)
  let out := updFloorArea out (R.floor_area txt)
  let out := updPpsf out (R.price_per_sqft txt)
  let out := updIfSome out "tenure" (tval (R.tenure txt))
  let out := updIfSome out "agent" (tval (R.agent txt))
  let out := updIfSome out "council_tax_band" (R.council_tax_band txt)
  let out := updIfSome out "ground_rent" (R.ground_rent txt)
  let out := roomsFold out (R.rooms txt)
  let out := updIfSome out "nearest_stations" h.nearest_stations
  let out := updIfSome out "nearest_stations_distances"
    h.nearest_stations_distances
  let out := updIfSome out "nearest_schools" h.nearest_schools
  let out := updPair out "listed_date" "listed_price" (R.listed txt)
  let out := updPair out "sold_date" "sold_price" (R.sold txt)
  updIfSome out "about_property" (tval (R.about txt))

/-- Line 417-418: `out["price"] = _norm_money(out["price"]) or out["price"]`
whenever the key is present. -/
def finPrice (out : List (String × String)) : List (String × String) :=
  match getv out "price" with
  | some p => upd out "price" (moneyNorm p)
  | none => out

/-- Line 419-420: strip thousands separators from `size_sq_feet`. -/
def finSize (out : List (String × String)) : List (String × String) :=
  match getv out "size_sq_feet" with
  | some s => upd out "size_sq_feet" (stripCommas s)
  | none => out

/-- Lines 422-424: when no `address` key exists and `display_address` is
truthy, copy it into `address`. -/
def finAddr (out : List (String × String)) : List (String × String) :=
  if getv out "address" = none then
    match tval (getv out "display_address") with
    | some d => upd out "address" d
    | none => out
  else out

/-- Final cleanup and normalisation (lines 416-427): price normalisation,
comma stripping of the floor area, the display-address fallback for
`address`, and the pruning of empty values. -/
def finalize (out : List (String × String)) : List (String × String) :=
  (finAddr (finSize (finPrice out))).filter (fun p => p.2 ≠ "")

/-- `fields_extractor.extract_from_html`. -/
def extract_from_html (R : TextRules) (h : Html) (visible_text : VisibleText) :
    List (String × String) :=
  finalize (visibleLayer R (chooseTxt h visible_text) h
    (ldLayer h.ld (zadLayer h.zad [])))

/-! ## Concrete fixtures for witnesses and counterexamples -/

/-- An ad-targeting block that parsed successfully and set bed, bath and
reception counts and a tenure, with no `has_epc` key. -/
def zadBeds : ZadJson :=
  { listing_id := "100", price_actual := "", price := "", property_type := "",
    tenure := "Freehold", num_beds := "2", num_baths := "1",
    num_recepts := "1", has_epc := none, has_floorplan := none,
    size_sq_feet := "", display_address := "", outcode := "",
    branch_name := "", brand_name := "", chain_free := none }

/-- Visible-text rules whose bed/bath/reception and tenure patterns all
match, contradicting the layer-1 values of `zadBeds`. -/
def rulesBeds : TextRules :=
  { status := fun _ => none, photos := fun _ => none,
    floorplans := fun _ => none, epc := fun _ => none,
    address := fun _ => none, beds := fun _ => some "3",
    baths := fun _ => some "2", recepts := fun _ => some "2",
    floor_area := fun _ => none, price_per_sqft := fun _ => none,
    tenure := fun _ => some "leasehold", agent := fun _ => none,
    council_tax_band := fun _ => none, ground_rent := fun _ => none,
    rooms := fun _ => [], listed := fun _ => none, sold := fun _ => none,
    about := fun _ => none }

/-- Visible-text rules none of whose patterns match. -/
def rulesNone : TextRules :=
  { status := fun _ => none, photos := fun _ => none,
    floorplans := fun _ => none, epc := fun _ => none,
    address := fun _ => none, beds := fun _ => none,
    baths := fun _ => none, recepts := fun _ => none,
    floor_area := fun _ => none, price_per_sqft := fun _ => none,
    tenure := fun _ => none, agent := fun _ => none,
    council_tax_band := fun _ => none, ground_rent := fun _ => none,
    rooms := fun _ => [], listed := fun _ => none, sold := fun _ => none,
    about := fun _ => none }

/-- Visible-text rules matching only an EPC rating letter. -/
def rulesEpc : TextRules :=
  { status := fun _ => none, photos := fun _ => none,
    floorplans := fun _ => none, epc := fun _ => some "C",
    address := fun _ => none, beds := fun _ => none,
    baths := fun _ => none, recepts := fun _ => none,
    floor_area := fun _ => none, price_per_sqft := fun _ => none,
    tenure := fun _ => none, agent := fun _ => none,
    council_tax_band := fun _ => none, ground_rent := fun _ => none,
    rooms := fun _ => [], listed := fun _ => none, sold := fun _ => none,
    about := fun _ => none }

/-- A document with the conflicting ad-targeting block and no other
structured data. -/
def htmlBeds : Html :=
  { zad := some zadBeds, ld := none, nearest_stations := none,
    nearest_stations_distances := none, nearest_schools := none,
    derived_text := "3 beds 2 bath 2 receptions Leasehold" }

/-- An ad-targeting block setting price `450000`. -/
def zadPrice : ZadJson :=
  { listing_id := "100", price_actual := "", price := "450000",
    property_type := "", tenure := "", num_beds := "", num_baths := "",
    num_recepts := "", has_epc := none, has_floorplan := none,
    size_sq_feet := "", display_address := "", outcode := "",
    branch_name := "", brand_name := "", chain_free := none }

/-- An offers block carrying price `460000`. -/
def ldPrice : LdJson := { offers_price := "460000", name := "" }

/-- A document carrying both price-bearing blocks of the spec example. -/
def htmlPrice : Html :=
  { zad := some zadPrice, ld := some ldPrice, nearest_stations := none,
    nearest_stations_distances := none, nearest_schools := none,
    derived_text := "" }

/-- An ad-targeting block that parsed successfully but carried no `has_epc`
key. -/
def zadNoEpc : ZadJson :=
  { listing_id := "100", price_actual := "", price := "", property_type := "",
    tenure := "", num_beds := "", num_baths := "", num_recepts := "",
    has_epc := none, has_floorplan := none, size_sq_feet := "",
    display_address := "", outcode := "", branch_name := "", brand_name := "",
    chain_free := none }

/-- A document whose visible text carries an EPC rating letter and whose
ad-targeting block parsed without a `has_epc` key. -/
def htmlEpc : Html :=
  { zad := some zadNoEpc, ld := none, nearest_stations := none,
    nearest_stations_distances := none, nearest_schools := none,
    derived_text := "EPC Rating: C" }

/-- A document with no embedded blocks at all. -/
def htmlPlain : Html :=
  { zad := none, ld := none, nearest_stations := none,
    nearest_stations_distances := none, nearest_schools := none,
    derived_text := "EPC Rating: C" }

/-! ## The crime-summary matcher/merger
(`real_estate_data_pipeline.run_crime_data_step`, lines 281-324)

Coordinates are rationals; `round(float(v), 5)` is `round5` (exact half-up
rounding to 5 decimal places; the claims exercise no representation tie).
A scraped record keeps the effective coordinate of the
`prop.get("lat") or prop.get("latitude")` chain as an `Option` (with `none`
for a missing or unparseable value) and the effective address of the
`address_full`/`address` chain; the crime payload embedded on a match is
opaque. -/

/-- Half-up rounding to the nearest integer. -/
def roundQ (q : ℚ) : ℤ := ⌊q + 1/2⌋

/-- Rounding to 5 decimal places. -/
def round5 (q : ℚ) : ℚ := (roundQ (q * 100000) : ℚ) / 100000

/-- `round_coord`: rounds a present, parseable coordinate, passes `None`
through. -/
def round_coord (v : Option ℚ) : Option ℚ := v.map round5

/-- A scraped property record as seen by the crime-data merge step. -/
structure SRecord where
  lat : Option ℚ
  lon : Option ℚ
  address : String
  crime_summary : Option String
  crime_data : Option String
deriving DecidableEq

/-- One entry of `property_crime_summaries.json`: coordinates, address, the
human-readable summary string and the (opaque) aggregate payload. -/
structure CSum where
  lat : Option ℚ
  lng : Option ℚ
  address : String
  summary : String
  aggregate : String
deriving DecidableEq

/-- The `.strip().lower()` address normalisation. -/
def normAddr (a : String) : String := pyLower (pyStrip a)

/-- Index by rounded-coordinate pair (`for idx, prop in enumerate(scraped)`,
lines 290-296); a later record with the same rounded key overwrites the
entry. -/
def buildCoordsAux : ℕ → List SRecord → List ((ℚ × ℚ) × ℕ) →
    List ((ℚ × ℚ) × ℕ)
  | _, [], d => d
  | i, r :: rs, d =>
    buildCoordsAux (i + 1) rs
      (match round_coord r.lat, round_coord r.lon with
       | some rlat, some rlng => upd d (rlat, rlng) i
       | _, _ => d)

def buildCoords (scraped : List SRecord) : List ((ℚ × ℚ) × ℕ) :=
  buildCoordsAux 0 scraped []

/-- Index by lower-cased, trimmed address (lines 298-306). -/
def buildAddrAux : ℕ → List SRecord → List (String × ℕ) → List (String × ℕ)
  | _, [], d => d
  | i, r :: rs, d =>
    buildAddrAux (i + 1) rs
      (if normAddr r.address ≠ "" then upd d (normAddr r.address) i else d)

def buildAddr (scraped : List SRecord) : List (String × ℕ) :=
  buildAddrAux 0 scraped []

/-- Target lookup for one summary (lines 310-319): coordinate index first
(rounding the summary the same way), then the address index on a miss. -/
def findTarget (bc : List ((ℚ × ℚ) × ℕ)) (ba : List (String × ℕ))
    (c : CSum) : Option ℕ :=
  let t1 : Option ℕ :=
    match round_coord c.lat, round_coord c.lng with
    | some clat, some clng => getv bc (clat, clng)
    | _, _ => none
  match t1 with
  | some i => some i
  | none =>
    if normAddr c.address ≠ "" then getv ba (normAddr c.address) else none

/-- Attach a summary to the record (lines 322-323): sets `crime_summary`
and `crime_data`, overwriting any previous values. -/
def setFields (r : SRecord) (c : CSum) : SRecord :=
  { r with crime_summary := some c.summary, crime_data := some c.aggregate }

/-- `scraped[target_idx][...] = ...` on the list of records. -/
def setCrime : List SRecord → ℕ → CSum → List SRecord
  | [], _, _ => []
  | r :: rs, 0, c => setFields r c :: rs
  | r :: rs, n + 1, c => r :: setCrime rs n c

/-- The `for c in summaries` embedding loop, with the two indices fixed. -/
def mergeLoop (bc : List ((ℚ × ℚ) × ℕ)) (ba : List (String × ℕ))
    (acc : List SRecord) (sums : List CSum) : List SRecord :=
  sums.foldl
    (fun acc c =>
      match findTarget bc ba c with
      | some i => setCrime acc i c
      | none => acc)
    acc

/-- The whole matcher/merger of `run_crime_data_step`. -/
def matchMerge (scraped : List SRecord) (sums : List CSum) : List SRecord :=
  mergeLoop (buildCoords scraped) (buildAddr scraped) scraped sums

/-! ### Fixtures for the matcher claims -/

/-- A record matchable only by address (no coordinates). -/
def recElm : SRecord :=
  { lat := none, lon := none, address := "1 Elm Street",
    crime_summary := none, crime_data := none }

/-- First summary for `recElm`. -/
def sumElmA : CSum :=
  { lat := none, lng := none, address := "1 Elm Street",
    summary := "summary A", aggregate := "aggregate A" }

/-- Second summary for `recElm`. -/
def sumElmB : CSum :=
  { lat := none, lng := none, address := "1 Elm Street",
    summary := "summary B", aggregate := "aggregate B" }

/-- The spec example record at (51.50000, -0.10000). -/
def rec51 : SRecord :=
  { lat := some (515/10), lon := some (-1/10), address := "",
    crime_summary := none, crime_data := none }

/-- The spec example record at (51.60000, -0.20000). -/
def rec52 : SRecord :=
  { lat := some (516/10), lon := some (-2/10), address := "",
    crime_summary := none, crime_data := none }

/-- The spec example summary at (51.50001, -0.09999). -/
def sumNear : CSum :=
  { lat := some (5150001/100000), lng := some (-9999/100000), address := "",
    summary := "near", aggregate := "aggregate near" }

/-- A summary at (51.500001, -0.100004), which genuinely rounds to
(51.5, -0.1) at 5 decimal places. -/
def sumExact : CSum :=
  { lat := some (51500001/1000000), lng := some (-100004/1000000),
    address := "", summary := "exact", aggregate := "aggregate exact" }

/-! ## `uk_police_api`: month keys and the 6-month crime aggregate

Month keys are the `f"{year:04d}-{month:02d}"` strings, modelled as their
character lists so that the `sorted(monthly_counts.keys())` string sort is
the lexicographic order on `List Char` (code-point comparison, exactly
Python string comparison).  The backward month walk of
`generate_recent_months` runs its `while month <= 0` loop with an explicit
bound on the iteration count (the loop adds 12 until the month is
positive). -/

/-- A decimal digit character (`0 ≤ d ≤ 9` at every use). -/
def digitChar (d : ℕ) : Char := Char.ofNat (48 + d)

/-- `f"{n:04d}"` for a non-negative value. -/
def pad4 (n : ℕ) : List Char :=
  if n < 10000 then
    [digitChar (n / 1000), digitChar (n / 100 % 10), digitChar (n / 10 % 10),
     digitChar (n % 10)]
  else (Nat.repr n).data

/-- `f"{n:02d}"` for a non-negative value. -/
def pad2 (n : ℕ) : List Char :=
  if n < 100 then [digitChar (n / 10), digitChar (n % 10)]
  else (Nat.repr n).data

/-- `f"{year:04d}-{month:02d}"` (years are non-negative in the claims'
domain). -/
def monthKey (y m : ℤ) : List Char := pad4 y.toNat ++ '-' :: pad2 m.toNat

/-- The `while month <= 0: month += 12; year -= 1` loop, with fuel bounding
the iteration count (each pass adds 12, so `(1 - m).toNat` passes always
suffice). -/
def fixupAux : ℕ → ℤ → ℤ → ℤ × ℤ
  | 0, y, m => (y, m)
  | f + 1, y, m => if m ≤ 0 then fixupAux f (y - 1) (m + 12) else (y, m)

def fixup (y m : ℤ) : ℤ × ℤ := fixupAux (1 - m).toNat y m

/-- `uk_police_api.generate_recent_months`, parameterised by the current
year and month (`date.today()`). -/
def generate_recent_months (num : ℕ) (y m : ℤ) : List (List Char) :=
  (List.range num).map (fun (i : ℕ) =>
    monthKey (fixup y (m - (i : ℤ))).1 (fixup y (m - (i : ℤ))).2)

/-- One calendar month earlier, with year rollover: January is preceded by
December of the previous year. -/
def prevMonth (p : ℤ × ℤ) : ℤ × ℤ :=
  if p.2 = 1 then (p.1 - 1, 12) else (p.1, p.2 - 1)

/-- `i` calendar months before the given (year, month). -/
def monthsBack (y m : ℤ) : ℕ → ℤ × ℤ
  | 0 => (y, m)
  | n + 1 => prevMonth (monthsBack y m n)

/-- A JSON sub-object whose `name` key may be absent (`none`), null
(`some none`) or a string. -/
structure StreetObj where
  name : Option (Option String)
deriving DecidableEq

/-- The `location` object: its `street` key may be absent, null, or an
object. -/
structure LocObj where
  street : Option (Option StreetObj)
deriving DecidableEq

/-- The `outcome_status` object. -/
structure OutcomeObj where
  category : Option (Option String)
deriving DecidableEq

/-- One incident as returned by the incident-lookup service: each field may
be absent (`none`), null (`some none`) or present (`some (some _)`). -/
structure Incident where
  category : Option (Option String)
  location : Option (Option LocObj)
  outcome_status : Option (Option OutcomeObj)
deriving DecidableEq

/-- `c.get("category", "unknown")`: a missing key defaults to `"unknown"`,
a null value is kept (tallied under the Python `None` key, modelled as
`none`). -/
def categoryOf (c : Incident) : Option String :=
  match c.category with
  | none => some "unknown"
  | some v => v

/-- `(c.get("location", ..) or ..).get("street", ..).get("name", "Unknown")`:
a missing or null location falls back to the empty dict, a missing street
key defaults to the empty dict, but a street key PRESENT WITH NULL makes the
final `.get` call raise `AttributeError` (there is no `or` guard between the
two gets). -/
def street_name (c : Incident) : Except String (Option String) :=
  let loc : LocObj :=
    match c.location with
    | some (some l) => l
    | _ => { street := none }
  match loc.street with
  | none => .ok (some "Unknown")
  | some none => .error "AttributeError: NoneType has no attribute get"
  | some (some st) =>
    .ok (match st.name with
      | none => some "Unknown"
      | some v => v)

/-- `(c.get("outcome_status") or ...).get("category", "Not provided")`. -/
def outcomeOf (c : Incident) : Option String :=
  match c.outcome_status with
  | some (some o) =>
    match o.category with
    | none => some "Not provided"
    | some v => v
  | _ => some "Not provided"

/-- The street-name list comprehension: the first incident with a null
street aborts the whole aggregation. -/
def streetNames : List Incident → Except String (List (Option String))
  | [] => .ok []
  | c :: cs =>
    match street_name c with
    | .error e => .error e
    | .ok s =>
      match streetNames cs with
      | .error e => .error e
      | .ok rest => .ok (s :: rest)

/-- One `Counter` increment. -/
def bump {κ : Type} [DecidableEq κ] (m : List (κ × ℕ)) (k : κ) :
    List (κ × ℕ) :=
  match getv m k with
  | some n => upd m k (n + 1)
  | none => upd m k 1

/-- `collections.Counter` over a list of keys (frequency map; the
`most_common` ordering is not modelled since no claim depends on it). -/
def tallyList {κ : Type} [DecidableEq κ] (l : List κ) : List (κ × ℕ) :=
  l.foldl bump []

/-- The trend computation (lines 54-71): string-sort the month keys, sum
the last three and the three before, and classify the relative change with
the 0.15 thresholds; no baseline means `"stable"`. -/
def trendOf (mc : List (List Char × ℕ)) : String :=
  let sorted := List.insertionSort (fun a b : List Char => a ≤ b) (keysOf mc)
  let last3 : ℕ :=
    if 3 ≤ sorted.length then
      ((sorted.drop (sorted.length - 3)).map (fun k => (getv mc k).getD 0)).sum
    else 0
  let prev3 : ℕ :=
    if 6 ≤ sorted.length then
      (((sorted.drop (sorted.length - 6)).take 3).map
        (fun k => (getv mc k).getD 0)).sum
    else 0
  if 0 < prev3 then
    let change : ℚ := ((last3 : ℚ) - (prev3 : ℚ)) / (prev3 : ℚ)
    if change > 0.15 then "rising"
    else if change < -0.15 then "falling"
    else "stable"
  else "stable"

/-- The aggregate returned by `aggregate_6month_crime`. -/
structure CrimeAgg where
  total : ℕ
  by_category : List (Option String × ℕ)
  top_streets : List (Option String × ℕ)
  outcomes : List (Option String × ℕ)
  monthly_counts : List (List Char × ℕ)
  trend : String
deriving DecidableEq

/-- `uk_police_api.aggregate_6month_crime`, parameterised by the per-month
incident fetch (`fetch_month_crimes`, which returns `[]` on any network
failure) and by the current date.  The result is `Except` because the
street tally can raise (see `street_name`). -/
def aggregate_6month_crime (fetch : List Char → List Incident) (y m : ℤ) :
    Except String CrimeAgg :=
  let months := generate_recent_months 6 y m
  let all_crimes := months.foldl (fun acc ym => acc ++ fetch ym) []
  let monthly_counts := months.foldl (fun d ym => upd d ym (fetch ym).length) []
  match streetNames all_crimes with
  | .error e => .error e
  | .ok streets =>
    .ok { total := all_crimes.length,
          by_category := tallyList (all_crimes.map categoryOf),
          top_streets := tallyList streets,
          outcomes := tallyList (all_crimes.map outcomeOf),
          monthly_counts := monthly_counts,
          trend := trendOf monthly_counts }

/-- The number of incidents fetched for the month `i` calendar months
before the current one (the claim-side chronological counts). -/
def monthCount (fetch : List Char → List Incident) (y m : ℤ) (i : ℕ) : ℕ :=
  (fetch (monthKey (monthsBack y m i).1 (monthsBack y m i).2)).length

/-- An incident whose `location` object carries `street` equal to null. -/
def badIncident : Incident :=
  { category := some (some "burglary"),
    location := some (some { street := some none }),
    outcome_status := none }

/-- An incident that tallies without error (street key absent). -/
def okIncident : Incident :=
  { category := some (some "burglary"), location := none,
    outcome_status := none }

/-- Monthly fetches 0,0,0,10,10,10 (oldest to newest): the newest three
months have 10 incidents each, the older three none. -/
def fetchStable6 : List Char → List Incident := fun k =>
  if k ∈ generate_recent_months 3 2025 10 then List.replicate 10 okIncident
  else []

/-- Monthly fetches 10,10,10,2,2,2 (oldest to newest). -/
def fetchFalling6 : List Char → List Incident := fun k =>
  if k ∈ generate_recent_months 3 2025 10 then List.replicate 2 okIncident
  else List.replicate 10 okIncident

/-- The aggregate produced by six empty fetches at October 2025. -/
def aggZero : CrimeAgg :=
  { total := 0, by_category := [], top_streets := [], outcomes := [],
    monthly_counts :=
      [("2025-10".data, 0), ("2025-09".data, 0), ("2025-08".data, 0),
       ("2025-07".data, 0), ("2025-06".data, 0), ("2025-05".data, 0)],
    trend := "stable" }


/-! ## Theorems -/

theorem getv_nil {κ β : Type} [DecidableEq κ] (k : κ) :
    getv ([] : List (κ × β)) k = none := rfl

theorem getv_cons {κ β : Type} [DecidableEq κ] (p : κ × β) (m : List (κ × β))
    (k : κ) : getv (p :: m) k = if p.1 = k then some p.2 else getv m k := rfl

theorem getv_append {κ β : Type} [DecidableEq κ] (m m₂ : List (κ × β))
    (k : κ) :
    getv (m ++ m₂) k = (getv m k).orElse (fun _ => getv m₂ k) := by
  induction m with
  | nil => simp [getv_nil, Option.orElse]
  | cons p m ih =>
    rw [List.cons_append, getv_cons, getv_cons]
    by_cases h : p.1 = k <;> simp [h, ih, Option.orElse]

theorem getv_upd_self {κ β : Type} [DecidableEq κ] (m : List (κ × β)) (k : κ)
    (v : β) : getv (upd m k v) k = some v := by
  induction m with
  | nil => simp [upd, getv]
  | cons p m ih =>
    by_cases h : p.1 = k
    · simp [upd, getv, h]
    · simp [upd, getv, h, ih]

theorem getv_upd_ne {κ β : Type} [DecidableEq κ] (m : List (κ × β)) (k q : κ)
    (v : β) (h : q ≠ k) : getv (upd m k v) q = getv m q := by
  induction m with
  | nil => simp [upd, getv, Ne.symm h]
  | cons p m ih =>
    by_cases hp : p.1 = k
    · simp [upd, getv, hp, Ne.symm h, h]
    · by_cases hq : p.1 = q
      · simp [upd, getv, hp, hq, h]
      · simp [upd, getv, hp, hq, h, ih]

theorem getv_setdefault_ne {κ β : Type} [DecidableEq κ] (m : List (κ × β))
    (k q : κ) (v : β) (h : q ≠ k) : getv (setdefault m k v) q = getv m q := by
  induction m with
  | nil => simp [setdefault, getv, Ne.symm h]
  | cons p m ih =>
    by_cases hp : p.1 = k
    · simp [setdefault, getv, hp]
    · by_cases hq : p.1 = q
      · simp [setdefault, getv, hp, hq, h]
      · simp [setdefault, getv, hp, hq, h, ih]

theorem getv_setdefault_self {κ β : Type} [DecidableEq κ] (m : List (κ × β))
    (k : κ) (v : β) :
    getv (setdefault m k v) k = some ((getv m k).getD v) := by
  induction m with
  | nil => simp [setdefault, getv]
  | cons p m ih =>
    by_cases hp : p.1 = k
    · simp [setdefault, getv, hp]
    · simp [setdefault, getv, hp, ih]

theorem getv_updIfSome_ne (m : List (String × String)) (k q : String)
    (o : Option String) (h : q ≠ k) : getv (updIfSome m k o) q = getv m q := by
  cases o with
  | none => rfl
  | some v => exact getv_upd_ne m k q v h

theorem getv_updIfSome_self (m : List (String × String)) (k : String)
    (o : Option String) :
    getv (updIfSome m k o) k =
      match o with
      | some v => some v
      | none => getv m k := by
  cases o with
  | none => rfl
  | some v => exact getv_upd_self m k v

theorem getv_eq_none_iff {κ β : Type} [DecidableEq κ] (m : List (κ × β))
    (k : κ) : getv m k = none ↔ k ∉ keysOf m := by
  induction m with
  | nil => simp [getv, keysOf]
  | cons p m ih =>
    by_cases hp : p.1 = k
    · simp [getv, keysOf, hp]
    · simp [getv, keysOf, hp, ih, Ne.symm hp]

theorem keysOf_upd {κ β : Type} [DecidableEq κ] (m : List (κ × β)) (k : κ)
    (v : β) :
    keysOf (upd m k v) =
      if (getv m k).isNone then keysOf m ++ [k] else keysOf m := by
  induction m with
  | nil => simp [upd, getv, keysOf]
  | cons p m ih =>
    by_cases hp : p.1 = k
    · simp [upd, getv, keysOf, hp]
    · simp only [upd, getv, keysOf, if_neg hp, List.map_cons]
      rcases hg : getv m k with _ | w
      · simp only [keysOf] at ih
        simp [ih, hg]
      · simp only [keysOf] at ih
        simp [ih, hg]

theorem nodup_keys_upd {κ β : Type} [DecidableEq κ] (m : List (κ × β)) (k : κ)
    (v : β) (h : (keysOf m).Nodup) : (keysOf (upd m k v)).Nodup := by
  rw [keysOf_upd]
  rcases hg : getv m k with _ | w
  · simp only [hg, Option.isNone_none, if_true]
    rw [List.nodup_append]
    refine ⟨h, List.nodup_singleton k, ?_⟩
    intro a ha hb
    simp only [List.mem_singleton] at hb
    subst hb
    exact ((getv_eq_none_iff m a).1 hg) ha
  · simp only [hg, Option.isNone_some, Bool.false_eq_true, if_false]
    exact h

theorem keysOf_setdefault {κ β : Type} [DecidableEq κ] (m : List (κ × β))
    (k : κ) (v : β) :
    keysOf (setdefault m k v) =
      if (getv m k).isNone then keysOf m ++ [k] else keysOf m := by
  induction m with
  | nil => simp [setdefault, getv, keysOf]
  | cons p m ih =>
    by_cases hp : p.1 = k
    · simp [setdefault, getv, keysOf, hp]
    · simp only [setdefault, getv, keysOf, if_neg hp, List.map_cons]
      rcases hg : getv m k with _ | w
      · simp only [keysOf] at ih
        simp [ih, hg]
      · simp only [keysOf] at ih
        simp [ih, hg]

theorem nodup_keys_setdefault {κ β : Type} [DecidableEq κ] (m : List (κ × β))
    (k : κ) (v : β) (h : (keysOf m).Nodup) :
    (keysOf (setdefault m k v)).Nodup := by
  rw [keysOf_setdefault]
  rcases hg : getv m k with _ | w
  · simp only [hg, Option.isNone_none, if_true]
    rw [List.nodup_append]
    refine ⟨h, List.nodup_singleton k, ?_⟩
    intro a ha hb
    simp only [List.mem_singleton] at hb
    subst hb
    exact ((getv_eq_none_iff m a).1 hg) ha
  · simp only [hg, Option.isNone_some, Bool.false_eq_true, if_false]
    exact h

theorem nodup_keys_updIfSome (m : List (String × String)) (k : String)
    (o : Option String) (h : (keysOf m).Nodup) :
    (keysOf (updIfSome m k o)).Nodup := by
  cases o with
  | none => exact h
  | some v => exact nodup_keys_upd m k v h

/-- With duplicate-free keys, looking a key up in the value-filtered dict is
the truthiness-filtered lookup.  This models the final
`return (k, v) for ... if v not in (None, "", [], ())` comprehension. -/
theorem getv_filter (m : List (String × String)) (k : String)
    (h : (keysOf m).Nodup) :
    getv (m.filter (fun p => p.2 ≠ "")) k =
      match getv m k with
      | some v => if v = "" then none else some v
      | none => none := by
  induction m with
  | nil => simp [getv]
  | cons p m ih =>
    simp only [keysOf, List.map_cons, List.nodup_cons] at h
    by_cases hp : p.1 = k
    · subst hp
      by_cases hv : p.2 = ""
      · simp only [List.filter_cons, hv, decide_True, ne_eq, not_true_eq_false,
          decide_False, Bool.false_eq_true, if_false]
        have hnone : getv (m.filter (fun p => p.2 ≠ "")) p.1 = none := by
          have hmk : getv m p.1 = none := by
            rw [getv_eq_none_iff]
            exact h.1
          rw [ih h.2, hmk]
        rw [hnone]
        simp [getv, hv]
      · simp [List.filter_cons, hv, getv]
    · by_cases hv : p.2 = ""
      · simp only [List.filter_cons, hv, decide_True, ne_eq, not_true_eq_false,
          decide_False, Bool.false_eq_true, if_false]
        rw [ih h.2]
        simp [getv, hp]
      · simp only [List.filter_cons, ne_eq, hv, not_false_eq_true, decide_True,
          if_true]
        rw [getv, if_neg hp, getv, if_neg hp, ih h.2]

theorem moneyAt_ne_empty (l : List Char) (r : List Char)
    (h : moneyAt l = some r) : r ≠ [] := by
  unfold moneyAt at h
  rcases hl2 : (match l with
    | c :: rest => if c = '£' then rest else l
    | [] => l).dropWhile Char.isWhitespace with _ | ⟨c, l3⟩
  · simp only [hl2] at h
    exact absurd h (by simp)
  · simp only [hl2] at h
    by_cases hd : c.isDigit
    · simp only [hd, if_true, Option.some.injEq] at h
      have hds : (c :: l3).takeWhile Char.isDigit
          = c :: l3.takeWhile Char.isDigit := by
        simp [List.takeWhile, hd]
      rw [hds] at h
      subst h
      simp
    · simp only [hd, Bool.false_eq_true, if_false] at h
      exact absurd h (by simp)

theorem moneySearch_ne_empty (l : List Char) (r : List Char)
    (h : moneySearch l = some r) : r ≠ [] := by
  induction l with
  | nil => simp [moneySearch] at h
  | cons c rest ih =>
    unfold moneySearch at h
    rcases hm : moneyAt (c :: rest) with _ | r2
    · rw [hm] at h
      exact ih h
    · rw [hm] at h
      cases h
      exact moneyAt_ne_empty _ _ hm

theorem norm_money_ne_some_empty (v : String) : norm_money v ≠ some "" := by
  unfold norm_money
  by_cases hv : v = ""
  · simp [hv]
  · simp only [hv, if_false]
    intro h
    rcases hs : moneySearch (stripCommas (pyStrip v)).data with _ | r
    · rw [hs] at h
      simp at h
    · rw [hs] at h
      simp only [Option.map_some'] at h
      apply moneySearch_ne_empty _ _ hs
      have := congrArg String.data (Option.some.inj h)
      simpa using this

/-! ### Key-tracking lemmas for the extraction pipeline -/

theorem getv_updEpc_ne (m : List (String × String)) (o : Option String)
    (q : String) (h1 : q ≠ "epc_rating") (h2 : q ≠ "has_epc") :
    getv (updEpc m o) q = getv m q := by
  cases o with
  | none => rfl
  | some e =>
    show getv (setdefault (upd m "epc_rating" e) "has_epc" "True") q = getv m q
    rw [getv_setdefault_ne _ _ _ _ h2, getv_upd_ne _ _ _ _ h1]

theorem getv_updEpc_rating (m : List (String × String)) (o : Option String) :
    getv (updEpc m o) "epc_rating" =
      match o with
      | some e => some e
      | none => getv m "epc_rating" := by
  cases o with
  | none => rfl
  | some e =>
    show getv (setdefault (upd m "epc_rating" e) "has_epc" "True") "epc_rating"
      = some e
    rw [getv_setdefault_ne _ _ _ _ (by decide), getv_upd_self]

theorem getv_updEpc_has (m : List (String × String)) (o : Option String) :
    getv (updEpc m o) "has_epc" =
      match o with
      | some _ => some ((getv m "has_epc").getD "True")
      | none => getv m "has_epc" := by
  cases o with
  | none => rfl
  | some e =>
    show getv (setdefault (upd m "epc_rating" e) "has_epc" "True") "has_epc"
      = some ((getv m "has_epc").getD "True")
    rw [getv_setdefault_self, getv_upd_ne _ _ _ _ (by decide)]

theorem getv_updFloorArea_ne (m : List (String × String)) (o : Option Nat)
    (q : String) (h : q ≠ "size_sq_feet") :
    getv (updFloorArea m o) q = getv m q := by
  cases o with
  | none => rfl
  | some n =>
    show getv (if n ≠ 0 then upd m "size_sq_feet" (toString n) else m) q
      = getv m q
    by_cases hn : n = 0
    · simp [hn]
    · simp only [hn, ne_eq, not_false_eq_true, if_true]
      exact getv_upd_ne _ _ _ _ h

theorem getv_updPpsf_ne (m : List (String × String)) (o : Option Nat)
    (q : String) (h : q ≠ "price_per_sqft") :
    getv (updPpsf m o) q = getv m q := by
  cases o with
  | none => rfl
  | some n => exact getv_upd_ne _ _ _ _ h

theorem getv_updPair_ne (m : List (String × String)) (k1 k2 : String)
    (o : Option (String × String)) (q : String) (h1 : q ≠ k1) (h2 : q ≠ k2) :
    getv (updPair m k1 k2 o) q = getv m q := by
  cases o with
  | none => rfl
  | some dp =>
    show getv (upd (upd m k1 dp.1) k2 dp.2) q = getv m q
    rw [getv_upd_ne _ _ _ _ h2, getv_upd_ne _ _ _ _ h1]

theorem roomKey_take2 (s : String) :
    ("room_" ++ s ++ "_m").data.take 2 = ['r', 'o'] := by
  rw [String.data_append, String.data_append]
  rfl

theorem roomKey_ne (s q : String) (hro : q.data.take 2 ≠ ['r', 'o']) :
    ("room_" ++ s ++ "_m") ≠ q :=
  fun he => hro (he ▸ roomKey_take2 s)

theorem getv_roomsFold_ne (m : List (String × String))
    (lst : List (String × String)) (q : String)
    (hro : q.data.take 2 ≠ ['r', 'o']) :
    getv (roomsFold m lst) q = getv m q := by
  induction lst generalizing m with
  | nil => rfl
  | cons p lst ih =>
    show getv (roomsFold (upd m ("room_" ++ p.1 ++ "_m") p.2) lst) q = getv m q
    rw [ih, getv_upd_ne _ _ _ _ (Ne.symm (roomKey_ne p.1 q hro))]

/-- The visible-text layer never writes a key outside its fixed key set and
the room-dimension keys. -/
theorem getv_visibleLayer_ne (R : TextRules) (txt : String) (h : Html)
    (m : List (String × String)) (k : String)
    (n1 : k ≠ "status") (n2 : k ≠ "number_of_photos")
    (n3 : k ≠ "number_of_floorplans") (n4 : k ≠ "epc_rating")
    (n5 : k ≠ "has_epc") (n6 : k ≠ "address") (n7 : k ≠ "bedrooms")
    (n8 : k ≠ "bathrooms") (n9 : k ≠ "receptions") (n10 : k ≠ "size_sq_feet")
    (n11 : k ≠ "price_per_sqft") (n12 : k ≠ "tenure") (n13 : k ≠ "agent")
    (n14 : k ≠ "council_tax_band") (n15 : k ≠ "ground_rent")
    (nro : k.data.take 2 ≠ ['r', 'o']) (n16 : k ≠ "nearest_stations")
    (n17 : k ≠ "nearest_stations_distances") (n18 : k ≠ "nearest_schools")
    (n19 : k ≠ "listed_date") (n20 : k ≠ "listed_price")
    (n21 : k ≠ "sold_date") (n22 : k ≠ "sold_price")
    (n23 : k ≠ "about_property") :
    getv (visibleLayer R txt h m) k = getv m k := by
  simp only [visibleLayer]
  rw [getv_updIfSome_ne _ _ _ _ n23,
    getv_updPair_ne _ _ _ _ _ n21 n22,
    getv_updPair_ne _ _ _ _ _ n19 n20,
    getv_updIfSome_ne _ _ _ _ n18,
    getv_updIfSome_ne _ _ _ _ n17,
    getv_updIfSome_ne _ _ _ _ n16,
    getv_roomsFold_ne _ _ _ nro,
    getv_updIfSome_ne _ _ _ _ n15,
    getv_updIfSome_ne _ _ _ _ n14,
    getv_updIfSome_ne _ _ _ _ n13,
    getv_updIfSome_ne _ _ _ _ n12,
    getv_updPpsf_ne _ _ _ n11,
    getv_updFloorArea_ne _ _ _ n10,
    getv_updIfSome_ne _ _ _ _ n9,
    getv_updIfSome_ne _ _ _ _ n8,
    getv_updIfSome_ne _ _ _ _ n7,
    getv_updIfSome_ne _ _ _ _ n6,
    getv_updEpc_ne _ _ _ n4 n5,
    getv_updIfSome_ne _ _ _ _ n3,
    getv_updIfSome_ne _ _ _ _ n2,
    getv_updIfSome_ne _ _ _ _ n1]

/-- The visible-text layer overwrites `bedrooms` whenever the bed-count rule
matches (`out.update(_extract_bed_bath_recepts(txt))`, line 391). -/
theorem getv_visibleLayer_bedrooms (R : TextRules) (txt : String) (h : Html)
    (m : List (String × String)) :
    getv (visibleLayer R txt h m) "bedrooms" =
      match R.beds txt with
      | some b => some b
      | none => getv m "bedrooms" := by
  simp only [visibleLayer]
  rw [getv_updIfSome_ne _ _ _ _ (by decide),
    getv_updPair_ne _ _ _ _ _ (by decide) (by decide),
    getv_updPair_ne _ _ _ _ _ (by decide) (by decide),
    getv_updIfSome_ne _ _ _ _ (by decide),
    getv_updIfSome_ne _ _ _ _ (by decide),
    getv_updIfSome_ne _ _ _ _ (by decide),
    getv_roomsFold_ne _ _ _ (by decide),
    getv_updIfSome_ne _ _ _ _ (by decide),
    getv_updIfSome_ne _ _ _ _ (by decide),
    getv_updIfSome_ne _ _ _ _ (by decide),
    getv_updIfSome_ne _ _ _ _ (by decide),
    getv_updPpsf_ne _ _ _ (by decide),
    getv_updFloorArea_ne _ _ _ (by decide),
    getv_updIfSome_ne _ _ _ _ (by decide),
    getv_updIfSome_ne _ _ _ _ (by decide),
    getv_updIfSome_self]
  cases R.beds txt with
  | some b => rfl
  | none =>
    rw [getv_updIfSome_ne _ _ _ _ (by decide),
      getv_updEpc_ne _ _ _ (by decide) (by decide),
      getv_updIfSome_ne _ _ _ _ (by decide),
      getv_updIfSome_ne _ _ _ _ (by decide),
      getv_updIfSome_ne _ _ _ _ (by decide)]

/-- Likewise for `bathrooms`. -/
theorem getv_visibleLayer_bathrooms (R : TextRules) (txt : String) (h : Html)
    (m : List (String × String)) :
    getv (visibleLayer R txt h m) "bathrooms" =
      match R.baths txt with
      | some b => some b
      | none => getv m "bathrooms" := by
  simp only [visibleLayer]
  rw [getv_updIfSome_ne _ _ _ _ (by decide),
    getv_updPair_ne _ _ _ _ _ (by decide) (by decide),
    getv_updPair_ne _ _ _ _ _ (by decide) (by decide),
    getv_updIfSome_ne _ _ _ _ (by decide),
    getv_updIfSome_ne _ _ _ _ (by decide),
    getv_updIfSome_ne _ _ _ _ (by decide),
    getv_roomsFold_ne _ _ _ (by decide),
    getv_updIfSome_ne _ _ _ _ (by decide),
    getv_updIfSome_ne _ _ _ _ (by decide),
    getv_updIfSome_ne _ _ _ _ (by decide),
    getv_updIfSome_ne _ _ _ _ (by decide),
    getv_updPpsf_ne _ _ _ (by decide),
    getv_updFloorArea_ne _ _ _ (by decide),
    getv_updIfSome_ne _ _ _ _ (by decide),
    getv_updIfSome_self]
  cases R.baths txt with
  | some b => rfl
  | none =>
    rw [getv_updIfSome_ne _ _ _ _ (by decide),
      getv_updIfSome_ne _ _ _ _ (by decide),
      getv_updEpc_ne _ _ _ (by decide) (by decide),
      getv_updIfSome_ne _ _ _ _ (by decide),
      getv_updIfSome_ne _ _ _ _ (by decide),
      getv_updIfSome_ne _ _ _ _ (by decide)]

/-- Likewise for `receptions`. -/
theorem getv_visibleLayer_receptions (R : TextRules) (txt : String) (h : Html)
    (m : List (String × String)) :
    getv (visibleLayer R txt h m) "receptions" =
      match R.recepts txt with
      | some b => some b
      | none => getv m "receptions" := by
  simp only [visibleLayer]
  rw [getv_updIfSome_ne _ _ _ _ (by decide),
    getv_updPair_ne _ _ _ _ _ (by decide) (by decide),
    getv_updPair_ne _ _ _ _ _ (by decide) (by decide),
    getv_updIfSome_ne _ _ _ _ (by decide),
    getv_updIfSome_ne _ _ _ _ (by decide),
    getv_updIfSome_ne _ _ _ _ (by decide),
    getv_roomsFold_ne _ _ _ (by decide),
    getv_updIfSome_ne _ _ _ _ (by decide),
    getv_updIfSome_ne _ _ _ _ (by decide),
    getv_updIfSome_ne _ _ _ _ (by decide),
    getv_updIfSome_ne _ _ _ _ (by decide),
    getv_updPpsf_ne _ _ _ (by decide),
    getv_updFloorArea_ne _ _ _ (by decide),
    getv_updIfSome_self]
  cases R.recepts txt with
  | some b => rfl
  | none =>
    rw [getv_updIfSome_ne _ _ _ _ (by decide),
      getv_updIfSome_ne _ _ _ _ (by decide),
      getv_updIfSome_ne _ _ _ _ (by decide),
      getv_updEpc_ne _ _ _ (by decide) (by decide),
      getv_updIfSome_ne _ _ _ _ (by decide),
      getv_updIfSome_ne _ _ _ _ (by decide),
      getv_updIfSome_ne _ _ _ _ (by decide)]

/-- The visible-text layer overwrites `tenure` whenever the tenure rule
matches with a truthy value (`if ten: out["tenure"] = ten`, lines 401-403). -/
theorem getv_visibleLayer_tenure (R : TextRules) (txt : String) (h : Html)
    (m : List (String × String)) :
    getv (visibleLayer R txt h m) "tenure" =
      match tval (R.tenure txt) with
      | some t => some t
      | none => getv m "tenure" := by
  simp only [visibleLayer]
  rw [getv_updIfSome_ne _ _ _ _ (by decide),
    getv_updPair_ne _ _ _ _ _ (by decide) (by decide),
    getv_updPair_ne _ _ _ _ _ (by decide) (by decide),
    getv_updIfSome_ne _ _ _ _ (by decide),
    getv_updIfSome_ne _ _ _ _ (by decide),
    getv_updIfSome_ne _ _ _ _ (by decide),
    getv_roomsFold_ne _ _ _ (by decide),
    getv_updIfSome_ne _ _ _ _ (by decide),
    getv_updIfSome_ne _ _ _ _ (by decide),
    getv_updIfSome_ne _ _ _ _ (by decide),
    getv_updIfSome_self]
  cases tval (R.tenure txt) with
  | some t => rfl
  | none =>
    rw [getv_updPpsf_ne _ _ _ (by decide),
      getv_updFloorArea_ne _ _ _ (by decide),
      getv_updIfSome_ne _ _ _ _ (by decide),
      getv_updIfSome_ne _ _ _ _ (by decide),
      getv_updIfSome_ne _ _ _ _ (by decide),
      getv_updIfSome_ne _ _ _ _ (by decide),
      getv_updEpc_ne _ _ _ (by decide) (by decide),
      getv_updIfSome_ne _ _ _ _ (by decide),
      getv_updIfSome_ne _ _ _ _ (by decide),
      getv_updIfSome_ne _ _ _ _ (by decide)]

/-- EPC rating as seen after the visible-text layer. -/
theorem getv_visibleLayer_epc (R : TextRules) (txt : String) (h : Html)
    (m : List (String × String)) :
    getv (visibleLayer R txt h m) "epc_rating" =
      match tval (R.epc txt) with
      | some e => some e
      | none => getv m "epc_rating" := by
  simp only [visibleLayer]
  rw [getv_updIfSome_ne _ _ _ _ (by decide),
    getv_updPair_ne _ _ _ _ _ (by decide) (by decide),
    getv_updPair_ne _ _ _ _ _ (by decide) (by decide),
    getv_updIfSome_ne _ _ _ _ (by decide),
    getv_updIfSome_ne _ _ _ _ (by decide),
    getv_updIfSome_ne _ _ _ _ (by decide),
    getv_roomsFold_ne _ _ _ (by decide),
    getv_updIfSome_ne _ _ _ _ (by decide),
    getv_updIfSome_ne _ _ _ _ (by decide),
    getv_updIfSome_ne _ _ _ _ (by decide),
    getv_updIfSome_ne _ _ _ _ (by decide),
    getv_updPpsf_ne _ _ _ (by decide),
    getv_updFloorArea_ne _ _ _ (by decide),
    getv_updIfSome_ne _ _ _ _ (by decide),
    getv_updIfSome_ne _ _ _ _ (by decide),
    getv_updIfSome_ne _ _ _ _ (by decide),
    getv_updIfSome_ne _ _ _ _ (by decide),
    getv_updEpc_rating]
  cases tval (R.epc txt) with
  | some e => rfl
  | none =>
    rw [getv_updIfSome_ne _ _ _ _ (by decide),
      getv_updIfSome_ne _ _ _ _ (by decide),
      getv_updIfSome_ne _ _ _ _ (by decide)]

/-- The EPC-presence flag as seen after the visible-text layer: on a truthy
EPC letter it is `setdefault`-ed, i.e. the earlier value wins whenever the
key is already present (even with an empty placeholder value). -/
theorem getv_visibleLayer_has_epc (R : TextRules) (txt : String) (h : Html)
    (m : List (String × String)) :
    getv (visibleLayer R txt h m) "has_epc" =
      match tval (R.epc txt) with
      | some _ => some ((getv m "has_epc").getD "True")
      | none => getv m "has_epc" := by
  simp only [visibleLayer]
  rw [getv_updIfSome_ne _ _ _ _ (by decide),
    getv_updPair_ne _ _ _ _ _ (by decide) (by decide),
    getv_updPair_ne _ _ _ _ _ (by decide) (by decide),
    getv_updIfSome_ne _ _ _ _ (by decide),
    getv_updIfSome_ne _ _ _ _ (by decide),
    getv_updIfSome_ne _ _ _ _ (by decide),
    getv_roomsFold_ne _ _ _ (by decide),
    getv_updIfSome_ne _ _ _ _ (by decide),
    getv_updIfSome_ne _ _ _ _ (by decide),
    getv_updIfSome_ne _ _ _ _ (by decide),
    getv_updIfSome_ne _ _ _ _ (by decide),
    getv_updPpsf_ne _ _ _ (by decide),
    getv_updFloorArea_ne _ _ _ (by decide),
    getv_updIfSome_ne _ _ _ _ (by decide),
    getv_updIfSome_ne _ _ _ _ (by decide),
    getv_updIfSome_ne _ _ _ _ (by decide),
    getv_updIfSome_ne _ _ _ _ (by decide),
    getv_updEpc_has]
  cases tval (R.epc txt) with
  | some e =>
    rw [getv_updIfSome_ne _ _ _ _ (by decide),
      getv_updIfSome_ne _ _ _ _ (by decide),
      getv_updIfSome_ne _ _ _ _ (by decide)]
  | none =>
    rw [getv_updIfSome_ne _ _ _ _ (by decide),
      getv_updIfSome_ne _ _ _ _ (by decide),
      getv_updIfSome_ne _ _ _ _ (by decide)]

/-- The ad-targeting layer on a fresh record, as an explicit association
list in dict-literal order. -/
theorem zadLayer_some_nil (z : ZadJson) :
    zadLayer (some z) [] =
      [("listing_id", z.listing_id),
       ("price", pyOr z.price_actual z.price),
       ("property_type", pyStrip z.property_type),
       ("tenure", pyLower (pyStrip z.tenure)),
       ("bedrooms", z.num_beds),
       ("bathrooms", z.num_baths),
       ("receptions", z.num_recepts),
       ("has_epc", z.has_epc.getD ""),
       ("has_floorplan", z.has_floorplan.getD ""),
       ("size_sq_feet", z.size_sq_feet),
       ("display_address", z.display_address),
       ("outcode", z.outcode),
       ("agent", pyOr z.branch_name z.brand_name),
       ("chain_free", z.chain_free.getD "")] := by
  rfl

theorem getv_ldLayer_price (l? : Option LdJson) (m : List (String × String)) :
    getv (ldLayer l? m) "price" =
      match l? with
      | some l => if l.offers_price ≠ "" then some l.offers_price
          else getv m "price"
      | none => getv m "price" := by
  cases l? with
  | none => rfl
  | some l =>
    simp only [ldLayer]
    by_cases ho : l.offers_price = ""
    · simp only [ho, ne_eq, not_true_eq_false, if_false]
      by_cases hn : l.name = ""
      · simp [hn]
      · simp only [ne_eq, hn, not_false_eq_true, if_true]
        rw [getv_upd_ne _ _ _ _ (by decide)]
    · simp only [ne_eq, ho, not_false_eq_true, if_true]
      by_cases hn : l.name = ""
      · simp only [hn, not_true_eq_false, if_false]
        rw [getv_upd_self]
      · simp only [hn, not_false_eq_true, if_true]
        rw [getv_upd_ne _ _ _ _ (by decide), getv_upd_self]

theorem getv_ldLayer_ne (l? : Option LdJson) (m : List (String × String))
    (k : String) (h1 : k ≠ "price") (h2 : k ≠ "title") :
    getv (ldLayer l? m) k = getv m k := by
  cases l? with
  | none => rfl
  | some l =>
    simp only [ldLayer]
    by_cases ho : l.offers_price = "" <;> by_cases hn : l.name = "" <;>
      simp only [ho, hn, ne_eq, not_true_eq_false, not_false_eq_true, if_true,
        if_false] <;>
      simp only [getv_upd_ne _ _ _ _ h1, getv_upd_ne _ _ _ _ h2]

/-! ### Nodup-key preservation through the pipeline -/

theorem nodup_keys_updEpc (m : List (String × String)) (o : Option String)
    (h : (keysOf m).Nodup) : (keysOf (updEpc m o)).Nodup := by
  cases o with
  | none => exact h
  | some e => exact nodup_keys_setdefault _ _ _ (nodup_keys_upd _ _ _ h)

theorem nodup_keys_updFloorArea (m : List (String × String)) (o : Option Nat)
    (h : (keysOf m).Nodup) : (keysOf (updFloorArea m o)).Nodup := by
  cases o with
  | none => exact h
  | some n =>
    show (keysOf (if n ≠ 0 then upd m "size_sq_feet" (toString n)
      else m)).Nodup
    by_cases hn : n = 0
    · simpa [hn] using h
    · simp only [hn, ne_eq, not_false_eq_true, if_true]
      exact nodup_keys_upd _ _ _ h

theorem nodup_keys_updPpsf (m : List (String × String)) (o : Option Nat)
    (h : (keysOf m).Nodup) : (keysOf (updPpsf m o)).Nodup := by
  cases o with
  | none => exact h
  | some n => exact nodup_keys_upd _ _ _ h

theorem nodup_keys_updPair (m : List (String × String)) (k1 k2 : String)
    (o : Option (String × String)) (h : (keysOf m).Nodup) :
    (keysOf (updPair m k1 k2 o)).Nodup := by
  cases o with
  | none => exact h
  | some dp => exact nodup_keys_upd _ _ _ (nodup_keys_upd _ _ _ h)

theorem nodup_keys_roomsFold (m : List (String × String))
    (lst : List (String × String)) (h : (keysOf m).Nodup) :
    (keysOf (roomsFold m lst)).Nodup := by
  induction lst generalizing m with
  | nil => exact h
  | cons p lst ih => exact ih _ (nodup_keys_upd _ _ _ h)

theorem nodup_keys_visibleLayer (R : TextRules) (txt : String) (h : Html)
    (m : List (String × String)) (hm : (keysOf m).Nodup) :
    (keysOf (visibleLayer R txt h m)).Nodup := by
  simp only [visibleLayer]
  exact nodup_keys_updIfSome _ _ _
    (nodup_keys_updPair _ _ _ _
    (nodup_keys_updPair _ _ _ _
    (nodup_keys_updIfSome _ _ _
    (nodup_keys_updIfSome _ _ _
    (nodup_keys_updIfSome _ _ _
    (nodup_keys_roomsFold _ _
    (nodup_keys_updIfSome _ _ _
    (nodup_keys_updIfSome _ _ _
    (nodup_keys_updIfSome _ _ _
    (nodup_keys_updIfSome _ _ _
    (nodup_keys_updPpsf _ _
    (nodup_keys_updFloorArea _ _
    (nodup_keys_updIfSome _ _ _
    (nodup_keys_updIfSome _ _ _
    (nodup_keys_updIfSome _ _ _
    (nodup_keys_updIfSome _ _ _
    (nodup_keys_updEpc _ _
    (nodup_keys_updIfSome _ _ _
    (nodup_keys_updIfSome _ _ _
    (nodup_keys_updIfSome _ _ _ hm))))))))))))))))))))

theorem nodup_keys_ldLayer (l? : Option LdJson) (m : List (String × String))
    (h : (keysOf m).Nodup) : (keysOf (ldLayer l? m)).Nodup := by
  cases l? with
  | none => exact h
  | some l =>
    simp only [ldLayer]
    by_cases ho : l.offers_price = "" <;> by_cases hn : l.name = "" <;>
      simp only [ho, hn, ne_eq, not_true_eq_false, not_false_eq_true, if_true,
        if_false] <;>
      first
      | exact h
      | exact nodup_keys_upd _ _ _ h
      | exact nodup_keys_upd _ _ _ (nodup_keys_upd _ _ _ h)

theorem nodup_keys_zadLayer (z? : Option ZadJson)
    (m : List (String × String)) (h : (keysOf m).Nodup) :
    (keysOf (zadLayer z? m)).Nodup := by
  cases z? with
  | none => exact h
  | some z =>
    simp only [zadLayer]
    exact nodup_keys_upd _ _ _ (nodup_keys_upd _ _ _ (nodup_keys_upd _ _ _
      (nodup_keys_upd _ _ _ (nodup_keys_upd _ _ _ (nodup_keys_upd _ _ _
      (nodup_keys_upd _ _ _ (nodup_keys_upd _ _ _ (nodup_keys_upd _ _ _
      (nodup_keys_upd _ _ _ (nodup_keys_upd _ _ _ (nodup_keys_upd _ _ _
      (nodup_keys_upd _ _ _ (nodup_keys_upd _ _ _ h)))))))))))))

/-! ### Lookups through `finalize` -/

theorem getv_finPrice_self (m : List (String × String)) :
    getv (finPrice m) "price" = (getv m "price").map moneyNorm := by
  unfold finPrice
  rcases hp : getv m "price" with _ | p
  · simp [hp]
  · simp only [Option.map_some']
    exact getv_upd_self _ _ _

theorem getv_finPrice_ne (m : List (String × String)) (q : String)
    (h : q ≠ "price") : getv (finPrice m) q = getv m q := by
  unfold finPrice
  rcases getv m "price" with _ | p
  · rfl
  · exact getv_upd_ne _ _ _ _ h

theorem getv_finSize_ne (m : List (String × String)) (q : String)
    (h : q ≠ "size_sq_feet") : getv (finSize m) q = getv m q := by
  unfold finSize
  rcases getv m "size_sq_feet" with _ | s
  · rfl
  · exact getv_upd_ne _ _ _ _ h

theorem getv_finAddr_ne (m : List (String × String)) (q : String)
    (h : q ≠ "address") : getv (finAddr m) q = getv m q := by
  unfold finAddr
  split
  · rcases tval (getv m "display_address") with _ | d
    · rfl
    · exact getv_upd_ne _ _ _ _ h
  · rfl

theorem nodup_keys_finPrice (m : List (String × String))
    (h : (keysOf m).Nodup) : (keysOf (finPrice m)).Nodup := by
  unfold finPrice
  rcases getv m "price" with _ | p
  · exact h
  · exact nodup_keys_upd _ _ _ h

theorem nodup_keys_finSize (m : List (String × String))
    (h : (keysOf m).Nodup) : (keysOf (finSize m)).Nodup := by
  unfold finSize
  rcases getv m "size_sq_feet" with _ | s
  · exact h
  · exact nodup_keys_upd _ _ _ h

theorem nodup_keys_finAddr (m : List (String × String))
    (h : (keysOf m).Nodup) : (keysOf (finAddr m)).Nodup := by
  unfold finAddr
  split
  · rcases tval (getv m "display_address") with _ | d
    · exact h
    · exact nodup_keys_upd _ _ _ h
  · exact h

/-- Lookup of `price` in the final record: the normalised value when the
pipeline produced one, pruned when empty. -/
theorem getv_finalize_price (m : List (String × String))
    (hm : (keysOf m).Nodup) :
    getv (finalize m) "price" =
      match getv m "price" with
      | some p => if moneyNorm p = "" then none else some (moneyNorm p)
      | none => none := by
  unfold finalize
  rw [getv_filter _ _ (nodup_keys_finAddr _ (nodup_keys_finSize _
      (nodup_keys_finPrice _ hm))),
    getv_finAddr_ne _ _ (by decide), getv_finSize_ne _ _ (by decide),
    getv_finPrice_self]
  rcases getv m "price" with _ | p <;> rfl

/-- Lookup of a key untouched by the final normalisation steps. -/
theorem getv_finalize_ne (m : List (String × String)) (q : String)
    (hm : (keysOf m).Nodup) (h1 : q ≠ "price") (h2 : q ≠ "size_sq_feet")
    (h3 : q ≠ "address") :
    getv (finalize m) q =
      match getv m q with
      | some v => if v = "" then none else some v
      | none => none := by
  unfold finalize
  rw [getv_filter _ _ (nodup_keys_finAddr _ (nodup_keys_finSize _
      (nodup_keys_finPrice _ hm))),
    getv_finAddr_ne _ _ h3, getv_finSize_ne _ _ h2, getv_finPrice_ne _ _ h1]

theorem tval_some_ne_empty (o : Option String) (t : String)
    (h : tval o = some t) : t ≠ "" := by
  cases o with
  | none => exact absurd h (by simp [tval])
  | some s =>
    simp only [tval] at h
    by_cases hs : s = ""
    · rw [if_pos hs] at h
      exact absurd h (by simp)
    · rw [if_neg hs] at h
      cases h
      exact hs

theorem moneyNorm_ne_empty (p : String) (hp : p ≠ "") : moneyNorm p ≠ "" := by
  unfold moneyNorm
  rcases hn : norm_money p with _ | r
  · simpa [pyOr] using hp
  · have hr : r ≠ "" := by
      intro he
      exact norm_money_ne_some_empty p (he ▸ hn)
    simp only [Option.getD_some, pyOr]
    rw [if_neg hr]
    exact hr

/-- Nodup keys for the whole record pipeline up to `finalize`. -/
theorem nodup_keys_pipeline (R : TextRules) (h : Html) (v : VisibleText) :
    (keysOf (visibleLayer R (chooseTxt h v) h
      (ldLayer h.ld (zadLayer h.zad [])))).Nodup :=
  nodup_keys_visibleLayer _ _ _ _ (nodup_keys_ldLayer _ _
    (nodup_keys_zadLayer _ _ (by simp [keysOf])))

/-! ## Claim C1 -/

/-- C1 (counterexample).  The claim states that when the ad-targeting layer
has set bedrooms/bathrooms/receptions/tenure, the visible-text layer never
replaces them.  On a document whose ad-targeting block sets bedrooms `"2"`,
bathrooms `"1"`, receptions `"1"` and tenure `"freehold"` while the visible
text yields `"3"`, `"2"`, `"2"` and `"leasehold"`, the final record carries
the visible-text values, not the layer-1 values. -/
theorem C1_counterexample :
    getv (extract_from_html rulesBeds htmlBeds .absent) "bedrooms" = some "3"
    ∧ getv (extract_from_html rulesBeds htmlBeds .absent) "bedrooms"
        ≠ some "2"
    ∧ getv (extract_from_html rulesBeds htmlBeds .absent) "tenure"
        = some "leasehold" := by
  decide

/-- C1 (amended).  The visible-text layer in fact overwrites bedrooms,
bathrooms, receptions and tenure whenever its patterns produce a (truthy)
value: the final record carries the visible-text value whenever both the
ad-targeting layer and the visible-text layer produce one for the same
key. -/
theorem C1_amended (R : TextRules) (h : Html) (v : VisibleText) (z : ZadJson)
    (_hz : h.zad = some z) (b ba r t : String)
    (hb : R.beds (chooseTxt h v) = some b) (hbne : b ≠ "")
    (hba : R.baths (chooseTxt h v) = some ba) (hbane : ba ≠ "")
    (hr : R.recepts (chooseTxt h v) = some r) (hrne : r ≠ "")
    (ht : tval (R.tenure (chooseTxt h v)) = some t) :
    getv (extract_from_html R h v) "bedrooms" = some b
    ∧ getv (extract_from_html R h v) "bathrooms" = some ba
    ∧ getv (extract_from_html R h v) "receptions" = some r
    ∧ getv (extract_from_html R h v) "tenure" = some t := by
  have htne : t ≠ "" := tval_some_ne_empty _ _ ht
  unfold extract_from_html
  refine ⟨?_, ?_, ?_, ?_⟩
  · rw [getv_finalize_ne _ _ (nodup_keys_pipeline R h v) (by decide)
      (by decide) (by decide), getv_visibleLayer_bedrooms, hb]
    simp [hbne]
  · rw [getv_finalize_ne _ _ (nodup_keys_pipeline R h v) (by decide)
      (by decide) (by decide), getv_visibleLayer_bathrooms, hba]
    simp [hbane]
  · rw [getv_finalize_ne _ _ (nodup_keys_pipeline R h v) (by decide)
      (by decide) (by decide), getv_visibleLayer_receptions, hr]
    simp [hrne]
  · rw [getv_finalize_ne _ _ (nodup_keys_pipeline R h v) (by decide)
      (by decide) (by decide), getv_visibleLayer_tenure, ht]
    simp [htne]

/-- C1 (witness): the amended claim instantiated on the concrete conflicting
document. -/
theorem C1_witness :
    getv (extract_from_html rulesBeds htmlBeds .absent) "bathrooms" = some "2"
    ∧ getv (extract_from_html rulesBeds htmlBeds .absent) "receptions"
        = some "2" :=
  ⟨(C1_amended rulesBeds htmlBeds .absent zadBeds rfl "3" "2" "2" "leasehold"
      rfl (by decide) rfl (by decide) rfl (by decide) rfl).2.1,
   (C1_amended rulesBeds htmlBeds .absent zadBeds rfl "3" "2" "2" "leasehold"
      rfl (by decide) rfl (by decide) rfl (by decide) rfl).2.2.1⟩

/-! ## Claim C2 -/

/-- C2.  When the document carries both an ad-targeting block (which sets a
price) and an ld+json block whose offers object carries a truthy price, the
final record price is the offers price, subjected to the final price
normalisation. -/
theorem C2_offers_price_wins (R : TextRules) (h : Html) (v : VisibleText)
    (z : ZadJson) (l : LdJson) (_hz : h.zad = some z) (hl : h.ld = some l)
    (ho : l.offers_price ≠ "") :
    getv (extract_from_html R h v) "price" = some (moneyNorm l.offers_price)
    := by
  unfold extract_from_html
  rw [getv_finalize_price _ (nodup_keys_pipeline R h v),
    getv_visibleLayer_ne _ _ _ _ _ (by decide) (by decide) (by decide)
      (by decide) (by decide) (by decide) (by decide) (by decide) (by decide)
      (by decide) (by decide) (by decide) (by decide) (by decide) (by decide)
      (by decide) (by decide) (by decide) (by decide) (by decide) (by decide)
      (by decide) (by decide) (by decide),
    hl, getv_ldLayer_price]
  simp only [ne_eq, ho, not_false_eq_true, if_true]
  rw [if_neg (moneyNorm_ne_empty _ ho)]

/-- C2 (witness): ad-targeting price `"450000"` and offers price `"460000"`
yield the final price `"460000"`. -/
theorem C2_witness :
    getv (extract_from_html rulesNone htmlPrice .absent) "price"
      = some "460000" :=
  (C2_offers_price_wins rulesNone htmlPrice .absent zadPrice ldPrice rfl rfl
    (by decide)).trans (by decide)

/-! ## Claim C3 -/

/-- C3.  For every document and every visible-text argument the extracted
record contains no key with an empty value: the final comprehension prunes
every Python-empty (`None`/`""`/empty-collection) value, which in this
string-valued model is the empty string. -/
theorem C3_no_empty_values (R : TextRules) (h : Html) (v : VisibleText) :
    ∀ p ∈ extract_from_html R h v, p.2 ≠ "" := by
  intro p hp
  unfold extract_from_html finalize at hp
  have := (List.mem_filter.mp hp).2
  simpa using this

/-- C3 (witness): the invariant applied to a concrete record member. -/
theorem C3_witness :
    ("price", "460000") ∈ extract_from_html rulesNone htmlPrice .absent
    ∧ ("price", "460000").2 ≠ "" :=
  ⟨by decide,
   C3_no_empty_values rulesNone htmlPrice .absent ("price", "460000")
     (by decide)⟩

/-! ## Claim C9 -/

/-- C9 (counterexample).  On a document whose ad-targeting block parsed
successfully but carried no `has_epc` key, a visible-text EPC letter sets
`epc_rating` but the final record does NOT contain `has_epc`: the layer-1
update always writes a (possibly empty) `has_epc` placeholder, which makes
the later `setdefault` a no-op, and the empty placeholder is pruned. -/
theorem C9_counterexample :
    getv (extract_from_html rulesEpc htmlEpc .absent) "epc_rating" = some "C"
    ∧ getv (extract_from_html rulesEpc htmlEpc .absent) "has_epc" = none := by
  decide

/-- C9 (amended).  A truthy visible-text EPC letter always sets
`epc_rating`; `has_epc` is additionally set to `"True"` when no ad-targeting
block parsed, but when an ad-targeting block parsed without a `has_epc` key
the empty placeholder it wrote blocks the default and is pruned, leaving
`has_epc` absent. -/
theorem C9_amended (R : TextRules) (h : Html) (v : VisibleText) (e : String)
    (he : tval (R.epc (chooseTxt h v)) = some e) :
    getv (extract_from_html R h v) "epc_rating" = some e
    ∧ (h.zad = none →
        getv (extract_from_html R h v) "has_epc" = some "True")
    ∧ (∀ z : ZadJson, h.zad = some z → z.has_epc = none →
        getv (extract_from_html R h v) "has_epc" = none) := by
  have hene : e ≠ "" := tval_some_ne_empty _ _ he
  unfold extract_from_html
  refine ⟨?_, ?_, ?_⟩
  · rw [getv_finalize_ne _ _ (nodup_keys_pipeline R h v) (by decide)
      (by decide) (by decide), getv_visibleLayer_epc, he]
    simp [hene]
  · intro hzn
    rw [getv_finalize_ne _ _ (nodup_keys_pipeline R h v) (by decide)
      (by decide) (by decide), getv_visibleLayer_has_epc, he, hzn,
      getv_ldLayer_ne _ _ _ (by decide) (by decide)]
    simp [zadLayer, getv]
  · intro z hz hzepc
    rw [getv_finalize_ne _ _ (nodup_keys_pipeline R h v) (by decide)
      (by decide) (by decide), getv_visibleLayer_has_epc, he, hz,
      getv_ldLayer_ne _ _ _ (by decide) (by decide), zadLayer_some_nil]
    simp [getv, hzepc]

/-- C9 (witness): the amended claim instantiated on a document with no
embedded blocks (so `has_epc` is defaulted to `"True"`). -/
theorem C9_witness :
    getv (extract_from_html rulesEpc htmlPlain .absent) "epc_rating"
      = some "C"
    ∧ getv (extract_from_html rulesEpc htmlPlain .absent) "has_epc"
      = some "True" :=
  ⟨(C9_amended rulesEpc htmlPlain .absent "C" rfl).1,
   (C9_amended rulesEpc htmlPlain .absent "C" rfl).2.1 rfl⟩

/-! ## Claim C10 -/

/-- C10.  An empty, whitespace-only or non-string `visible_text` argument is
treated exactly like an absent one: the record is computed from the text
derived from the html in all four cases. -/
theorem C10_blank_visible_text (R : TextRules) (h : Html) (v : VisibleText)
    (hv : v = .notStr ∨ ∃ s, v = .str s ∧ pyStrip s = "") :
    extract_from_html R h v = extract_from_html R h .absent := by
  rcases hv with hv | ⟨s, hv, hs⟩
  · subst hv
    rfl
  · subst hv
    have hc : chooseTxt h (.str s) = chooseTxt h .absent := by
      simp [chooseTxt, hs]
    unfold extract_from_html
    rw [hc]

/-- C10 (witness): a whitespace-only rendering gives the same record as an
absent one. -/
theorem C10_witness :
    extract_from_html rulesNone htmlPrice (.str "  ")
      = extract_from_html rulesNone htmlPrice .absent :=
  C10_blank_visible_text rulesNone htmlPrice (.str "  ")
    (Or.inr ⟨"  ", rfl, by decide⟩)

theorem setCrime_getElem (l : List SRecord) (j : ℕ) (c : CSum) (i : ℕ) :
    (setCrime l j c)[i]? =
      if i = j then (l[i]?).map (fun r => setFields r c) else l[i]? := by
  induction l generalizing i j with
  | nil => simp [setCrime]
  | cons r rs ih =>
    cases j with
    | zero =>
      cases i with
      | zero => simp [setCrime]
      | succ i => simp [setCrime]
    | succ j =>
      cases i with
      | zero => simp [setCrime]
      | succ i =>
        simp only [setCrime, List.getElem?_cons_succ, ih,
          Nat.succ_eq_add_one]
        by_cases hij : i = j
        · simp [hij]
        · simp [hij, fun hh : i + 1 = j + 1 => hij (Nat.succ_injective hh)]

theorem getLast?_cons {α : Type} (a : α) (l : List α) :
    (a :: l).getLast? = some ((l.getLast?).getD a) := by
  induction l generalizing a with
  | nil => rfl
  | cons b t ih =>
    rw [List.getLast?_cons_cons, ih b]
    rcases ht : t.getLast? with _ | x
    · simp [List.getLast?_eq_none_iff.mp ht]
    · simp [ih, ht]

theorem mergeLoop_getElem (bc : List ((ℚ × ℚ) × ℕ)) (ba : List (String × ℕ))
    (sums : List CSum) (acc : List SRecord) (i : ℕ) :
    (mergeLoop bc ba acc sums)[i]? =
      match (sums.filter
          (fun c => decide (findTarget bc ba c = some i))).getLast? with
      | some c => (acc[i]?).map (fun r => setFields r c)
      | none => acc[i]? := by
  induction sums generalizing acc with
  | nil => simp [mergeLoop]
  | cons c cs ih =>
    have hstep : mergeLoop bc ba acc (c :: cs) =
        mergeLoop bc ba
          (match findTarget bc ba c with
           | some j => setCrime acc j c
           | none => acc) cs := rfl
    rw [hstep, ih]
    rcases hft : findTarget bc ba c with _ | j
    · have hpc : (decide (findTarget bc ba c = some i)) = false := by
        simp [hft]
      simp [List.filter_cons, hpc]
    · by_cases hji : j = i
      · subst hji
        have hpc : (decide (findTarget bc ba c = some j)) = true := by
          simp [hft]
        rw [List.filter_cons_of_pos (by simp [hft])]
        rw [getLast?_cons]
        rcases hlast : (cs.filter
            (fun c => decide (findTarget bc ba c = some j))).getLast? with _ | c2
        · simp only [hlast, Option.getD_none]
          rw [setCrime_getElem]
          simp
        · simp only [hlast, Option.getD_some]
          rw [setCrime_getElem]
          simp only [if_pos rfl]
          rcases acc[j]? with _ | r
          · simp
          · simp [setFields]
      · have hpc : (decide (findTarget bc ba c = some i)) = false := by
          simp [hft, hji]
        rw [List.filter_cons_of_neg (by simp [hft, hji])]
        rw [setCrime_getElem, if_neg (fun hh => hji hh.symm)]

/-! ## Claim C5 -/

/-- C5 (counterexample).  The claim states that only the first matching
summary is attached and later ones are not applied.  With one record and two
summaries matching it (by address), the final record carries the SECOND
summary's fields: the merge loop has no already-enriched check, so the last
match wins. -/
theorem C5_counterexample :
    matchMerge [recElm] [sumElmA, sumElmB] = [setFields recElm sumElmB]
    ∧ (matchMerge [recElm] [sumElmA, sumElmB]).map SRecord.crime_summary
      ≠ [some "summary A"] := by
  decide

/-- C5 (amended).  Each record's crime fields come from the LAST summary in
input order that matches it (later matching summaries overwrite earlier
ones); a record matched by no summary is unchanged. -/
theorem C5_amended (scraped : List SRecord) (sums : List CSum) (i : ℕ) :
    (matchMerge scraped sums)[i]? =
      match (sums.filter (fun c =>
          decide (findTarget (buildCoords scraped) (buildAddr scraped) c
            = some i))).getLast? with
      | some c => (scraped[i]?).map (fun r => setFields r c)
      | none => scraped[i]? :=
  mergeLoop_getElem (buildCoords scraped) (buildAddr scraped) sums scraped i

/-! ## Claim C6 -/

/-- C6 (counterexample).  The claim asserts (following the spec example)
that a summary at (51.50001, -0.09999) rounds to (51.5, -0.1) and matches
the first record.  In fact 5-decimal rounding leaves 51.50001 unchanged, the
coordinate lookup misses, the empty address gives no fallback, and the
summary matches no record at all. -/
theorem C6_counterexample :
    findTarget (buildCoords [rec51, rec52]) (buildAddr [rec51, rec52]) sumNear
      = none
    ∧ matchMerge [rec51, rec52] [sumNear] = [rec51, rec52] := by
  have h1 : round5 (515/10) = 515/10 := by norm_num [round5, roundQ]
  have h2 : round5 (-1/10) = -1/10 := by norm_num [round5, roundQ]
  have h3 : round5 (516/10) = 516/10 := by norm_num [round5, roundQ]
  have h4 : round5 (-2/10) = -2/10 := by norm_num [round5, roundQ]
  have h5 : round5 (5150001/100000) = 5150001/100000 := by
    norm_num [round5, roundQ]
  have h6 : round5 (-9999/100000) = -9999/100000 := by
    norm_num [round5, roundQ]
  have hbc : buildCoords [rec51, rec52]
      = [((515/10, -1/10), 0), ((516/10, -2/10), 1)] := by
    simp only [buildCoords, buildCoordsAux, rec51, rec52, round_coord,
      Option.map_some', h1, h2, h3, h4]
    norm_num [upd]
  have hba : buildAddr [rec51, rec52] = [] := by
    simp [buildAddr, buildAddrAux, rec51, rec52, normAddr, pyLower, pyStrip]
  have hft : findTarget (buildCoords [rec51, rec52])
      (buildAddr [rec51, rec52]) sumNear = none := by
    simp only [findTarget, hbc, hba, sumNear, round_coord, Option.map_some',
      h5, h6]
    have k1 : ¬(((515:ℚ)/10, (-1:ℚ)/10)
        = ((5150001:ℚ)/100000, (-9999:ℚ)/100000)) := by
      intro hh
      have := congrArg Prod.fst hh
      norm_num at this
    have k2 : ¬(((516:ℚ)/10, (-2:ℚ)/10)
        = ((5150001:ℚ)/100000, (-9999:ℚ)/100000)) := by
      intro hh
      have := congrArg Prod.fst hh
      norm_num at this
    simp [getv, k1, k2, normAddr, pyLower, pyStrip]
  refine ⟨hft, ?_⟩
  show mergeLoop _ _ _ _ = _
  simp [mergeLoop, hft]

/-- C6 (amended).  The matching procedure is as described (round latitude
and longitude independently to 5 decimal places, look the pair up in the
coordinate index built with the same rounding, fall back to the normalised
address on a miss), but the spec example is wrong: (51.50001, -0.09999)
rounds to itself, not to (51.5, -0.1), and matches neither record; a summary
at (51.500001, -0.100004) does round to (51.5, -0.1) and matches exactly the
first record. -/
theorem C6_amended :
    round5 (5150001/100000) = 5150001/100000
    ∧ round5 (5150001/100000) ≠ 515/10
    ∧ round5 (51500001/1000000) = 515/10
    ∧ round5 (-100004/1000000) = -1/10
    ∧ findTarget (buildCoords [rec51, rec52]) (buildAddr [rec51, rec52])
        sumExact = some 0
    ∧ matchMerge [rec51, rec52] [sumExact]
        = [setFields rec51 sumExact, rec52] := by
  have h1 : round5 (515/10) = 515/10 := by norm_num [round5, roundQ]
  have h2 : round5 (-1/10) = -1/10 := by norm_num [round5, roundQ]
  have h3 : round5 (516/10) = 516/10 := by norm_num [round5, roundQ]
  have h4 : round5 (-2/10) = -2/10 := by norm_num [round5, roundQ]
  have h5 : round5 (51500001/1000000) = 515/10 := by
    norm_num [round5, roundQ]
  have h6 : round5 (-100004/1000000) = -1/10 := by
    norm_num [round5, roundQ]
  have hbc : buildCoords [rec51, rec52]
      = [((515/10, -1/10), 0), ((516/10, -2/10), 1)] := by
    simp only [buildCoords, buildCoordsAux, rec51, rec52, round_coord,
      Option.map_some', h1, h2, h3, h4]
    norm_num [upd]
  have hba : buildAddr [rec51, rec52] = [] := by
    simp [buildAddr, buildAddrAux, rec51, rec52, normAddr, pyLower, pyStrip]
  have hft : findTarget (buildCoords [rec51, rec52])
      (buildAddr [rec51, rec52]) sumExact = some 0 := by
    simp only [findTarget, hbc, hba, sumExact, round_coord, Option.map_some',
      h5, h6]
    simp [getv]
  refine ⟨by norm_num [round5, roundQ], by norm_num [round5, roundQ],
    h5, h6, hft, ?_⟩
  show mergeLoop _ _ _ _ = _
  simp [mergeLoop, hft, setCrime]

theorem fixupAux_of_pos (f : ℕ) (y m : ℤ) (h : 1 ≤ m) :
    fixupAux f y m = (y, m) := by
  cases f with
  | zero => rfl
  | succ f =>
    show (if m ≤ 0 then fixupAux f (y - 1) (m + 12) else (y, m)) = (y, m)
    rw [if_neg (by omega)]

theorem fixup_of_pos (y m : ℤ) (h : 1 ≤ m) : fixup y m = (y, m) :=
  fixupAux_of_pos _ y m h

theorem fixup_of_nonpos (y m : ℤ) (h1 : -11 ≤ m) (h2 : m ≤ 0) :
    fixup y m = (y - 1, m + 12) := by
  unfold fixup
  obtain ⟨k, hk⟩ : ∃ k, (1 - m).toNat = k + 1 := ⟨(1 - m).toNat - 1, by omega⟩
  rw [hk]
  show (if m ≤ 0 then fixupAux k (y - 1) (m + 12) else (y, m)) = (y - 1, m + 12)
  rw [if_pos h2]
  exact fixupAux_of_pos k _ _ (by omega)

theorem monthsBack_spec (y m : ℤ) (hm1 : 1 ≤ m) (hm2 : m ≤ 12) (i : ℕ) :
    1 ≤ (monthsBack y m i).2 ∧ (monthsBack y m i).2 ≤ 12 ∧
      (monthsBack y m i).1 * 12 + (monthsBack y m i).2 = y * 12 + m - i := by
  induction i with
  | zero => exact ⟨hm1, hm2, by simp [monthsBack]⟩
  | succ i ih =>
    obtain ⟨h1, h2, h3⟩ := ih
    rcases hp : monthsBack y m i with ⟨Y, M⟩
    rw [hp] at h1 h2 h3
    dsimp only at h1 h2 h3
    have hstep : monthsBack y m (i + 1) = prevMonth (Y, M) := by
      show prevMonth (monthsBack y m i) = _
      rw [hp]
    rw [hstep]
    unfold prevMonth
    by_cases hm : M = 1
    · rw [if_pos (by simpa using hm)]
      dsimp only
      refine ⟨by norm_num, by norm_num, ?_⟩
      push_cast
      omega
    · rw [if_neg (by simpa using hm)]
      dsimp only
      push_cast
      refine ⟨by omega, by omega, by omega⟩

theorem fixup_eq_monthsBack (y m : ℤ) (hm1 : 1 ≤ m) (hm2 : m ≤ 12) (i : ℕ)
    (hi : i ≤ 11) : fixup y (m - i) = monthsBack y m i := by
  obtain ⟨h1, h2, h3⟩ := monthsBack_spec y m hm1 hm2 i
  rcases hp : monthsBack y m i with ⟨Y, M⟩
  rw [hp] at h1 h2 h3
  dsimp only at h1 h2 h3
  by_cases hpos : 1 ≤ m - (i : ℤ)
  · rw [fixup_of_pos _ _ hpos]
    have hY : Y = y ∧ M = m - i := by constructor <;> omega
    rw [hY.1, hY.2]
  · rw [fixup_of_nonpos _ _ (by omega) (by omega)]
    have hY : Y = y - 1 ∧ M = m - i + 12 := by constructor <;> omega
    rw [hY.1, hY.2]

theorem generate_recent_months_eq (y m : ℤ) (hm1 : 1 ≤ m) (hm2 : m ≤ 12) :
    generate_recent_months 6 y m =
      (List.range 6).map (fun i =>
        monthKey (monthsBack y m i).1 (monthsBack y m i).2) := by
  unfold generate_recent_months
  apply List.map_congr_left
  intro i hi
  rw [fixup_eq_monthsBack y m hm1 hm2 i (by simp at hi; omega)]

/-! ### String order on month keys -/

theorem digitChar_lt_aux :
    ∀ a < 10, ∀ b < 10, a < b → digitChar a < digitChar b := by decide

theorem pad2_lt_aux :
    ∀ a < 13, ∀ b < 13, a < b → List.Lex (· < ·) (pad2 a) (pad2 b) := by
  decide

/-- Four-digit zero-padded rendering is order preserving, even followed by
arbitrary suffixes (the first differing digit decides). -/
theorem pad4_lt_append (a b : ℕ) (hb : b < 10000) (hab : a < b)
    (s t : List Char) :
    List.Lex (· < ·) (pad4 a ++ s) (pad4 b ++ t) := by
  have ha : a < 10000 := lt_trans hab hb
  unfold pad4
  rw [if_pos ha, if_pos hb]
  simp only [List.cons_append, List.nil_append]
  have h3 : a / 1000 ≤ b / 1000 := Nat.div_le_div_right (le_of_lt hab)
  rcases eq_or_lt_of_le h3 with h3 | h3
  · rw [h3]
    apply List.Lex.cons
    have h2 : a / 100 % 10 ≤ b / 100 % 10 := by omega
    rcases eq_or_lt_of_le h2 with h2 | h2
    · rw [h2]
      apply List.Lex.cons
      have h1 : a / 10 % 10 ≤ b / 10 % 10 := by omega
      rcases eq_or_lt_of_le h1 with h1 | h1
      · rw [h1]
        apply List.Lex.cons
        have h0 : a % 10 < b % 10 := by omega
        exact List.Lex.rel (digitChar_lt_aux _ (by omega) _ (by omega) h0)
      · exact List.Lex.rel (digitChar_lt_aux _ (by omega) _ (by omega) h1)
    · exact List.Lex.rel (digitChar_lt_aux _ (by omega) _ (by omega) h2)
  · exact List.Lex.rel (digitChar_lt_aux _ (by omega) _ (by omega) h3)

/-- `"YYYY-MM"` keys compare like their (year, month) pairs within the
printable range. -/
theorem monthKey_lt (y1 m1 y2 m2 : ℤ) (h0 : 0 ≤ y1) (hy2 : y2 ≤ 9999)
    (hm11 : 1 ≤ m1) (hm12 : m1 ≤ 12) (hm21 : 1 ≤ m2) (hm22 : m2 ≤ 12)
    (h : y1 < y2 ∨ (y1 = y2 ∧ m1 < m2)) :
    List.Lex (· < ·) (monthKey y1 m1) (monthKey y2 m2) := by
  unfold monthKey
  rcases h with h | ⟨hy, hm⟩
  · exact pad4_lt_append y1.toNat y2.toNat (by omega) (by omega) _ _
  · rw [hy,
      show ('-' :: pad2 m1.toNat) = ['-'] ++ pad2 m1.toNat from rfl,
      show ('-' :: pad2 m2.toNat) = ['-'] ++ pad2 m2.toNat from rfl,
      ← List.append_assoc, ← List.append_assoc]
    exact List.Lex.append_left _
      (pad2_lt_aux m1.toNat (by omega) m2.toNat (by omega) (by omega)) _

/-- The lexicographic order is the `<` of the linear order on `List Char`
used by the sort. -/
theorem lex_is_lt (a b : List Char) (h : List.Lex (· < ·) a b) : a < b := h

/-- Walking further back in time yields strictly smaller month-key
strings (within the 4-digit year range). -/
theorem monthsBack_key_lt (y m : ℤ) (hy1 : 1 ≤ y) (hy2 : y ≤ 9999)
    (hm1 : 1 ≤ m) (hm2 : m ≤ 12) (i j : ℕ) (hij : i < j) (hj : j ≤ 11) :
    monthKey (monthsBack y m j).1 (monthsBack y m j).2
      < monthKey (monthsBack y m i).1 (monthsBack y m i).2 := by
  obtain ⟨hi1, hi2, hi3⟩ := monthsBack_spec y m hm1 hm2 i
  obtain ⟨hj1, hj2, hj3⟩ := monthsBack_spec y m hm1 hm2 j
  apply lex_is_lt
  apply monthKey_lt
  · omega
  · omega
  · exact hj1
  · exact hj2
  · exact hi1
  · exact hi2
  · omega

/-- The six generated keys are strictly descending (newest first). -/
theorem months_pairwise (y m : ℤ) (hy1 : 1 ≤ y) (hy2 : y ≤ 9999)
    (hm1 : 1 ≤ m) (hm2 : m ≤ 12) :
    (generate_recent_months 6 y m).Pairwise (fun a b => b < a) := by
  rw [generate_recent_months_eq y m hm1 hm2, List.pairwise_map]
  refine (List.pairwise_lt_range 6).imp_of_mem ?_
  intro i j hi hj hij
  exact monthsBack_key_lt y m hy1 hy2 hm1 hm2 i j hij
    (by simp only [List.mem_range] at hj; omega)

theorem months_nodup (y m : ℤ) (hy1 : 1 ≤ y) (hy2 : y ≤ 9999)
    (hm1 : 1 ≤ m) (hm2 : m ≤ 12) :
    (generate_recent_months 6 y m).Nodup :=
  (months_pairwise y m hy1 hy2 hm1 hm2).imp (fun h => ne_of_gt h)

/-- Sorting the generated keys ascending reverses them into chronological
order (oldest first). -/
theorem sorted_months (y m : ℤ) (hy1 : 1 ≤ y) (hy2 : y ≤ 9999)
    (hm1 : 1 ≤ m) (hm2 : m ≤ 12) :
    List.insertionSort (fun a b : List Char => a ≤ b)
        (generate_recent_months 6 y m)
      = (generate_recent_months 6 y m).reverse := by
  have h1 : List.Sorted (fun a b : List Char => a ≤ b)
      (generate_recent_months 6 y m).reverse := by
    rw [List.Sorted, List.pairwise_reverse]
    exact (months_pairwise y m hy1 hy2 hm1 hm2).imp (fun h => le_of_lt h)
  have h2 := List.sorted_insertionSort (fun a b : List Char => a ≤ b)
    (generate_recent_months 6 y m)
  have h3 : (List.insertionSort (fun a b : List Char => a ≤ b)
        (generate_recent_months 6 y m)).Perm
      (generate_recent_months 6 y m).reverse :=
    (List.perm_insertionSort _ _).trans
      (List.reverse_perm (generate_recent_months 6 y m)).symm
  exact List.eq_of_perm_of_sorted h3 h2 h1

/-! ### Building the monthly-counts dict -/

theorem upd_of_getv_none {κ β : Type} [DecidableEq κ] (m : List (κ × β))
    (k : κ) (v : β) (h : getv m k = none) : upd m k v = m ++ [(k, v)] := by
  induction m with
  | nil => rfl
  | cons p m ih =>
    rw [getv_cons] at h
    by_cases hp : p.1 = k
    · rw [if_pos hp] at h
      exact absurd h (by simp)
    · rw [if_neg hp] at h
      show (if p.1 = k then _ else p :: upd m k v) = _
      rw [if_neg hp, ih h]
      rfl

theorem foldl_upd_fresh {κ β : Type} [DecidableEq κ] (f : κ → β) :
    ∀ (ks : List κ) (acc : List (κ × β)),
      (∀ k ∈ ks, getv acc k = none) → ks.Nodup →
      ks.foldl (fun d k => upd d k (f k)) acc
        = acc ++ ks.map (fun k => (k, f k)) := by
  intro ks
  induction ks with
  | nil => intro acc _ _; simp
  | cons k ks ih =>
    intro acc hfresh hnodup
    have hk : getv acc k = none := hfresh k (List.mem_cons_self k ks)
    show List.foldl _ (upd acc k (f k)) ks = _
    rw [upd_of_getv_none _ _ _ hk, ih]
    · simp
    · intro k2 hk2
      rw [getv_append, hfresh k2 (List.mem_cons_of_mem _ hk2)]
      have hne : k ≠ k2 := fun he =>
        (List.nodup_cons.mp hnodup).1 (he ▸ hk2)
      simp [Option.orElse, getv_cons, getv_nil, hne]
    · exact (List.nodup_cons.mp hnodup).2

theorem getv_map_pair {κ β : Type} [DecidableEq κ] (f : κ → β) :
    ∀ (ks : List κ) (k : κ), k ∈ ks →
      getv (ks.map (fun k => (k, f k))) k = some (f k) := by
  intro ks
  induction ks with
  | nil => intro k hk; simp at hk
  | cons a ks ih =>
    intro k hk
    by_cases hak : a = k
    · subst hak
      simp [getv_cons]
    · rcases List.mem_cons.mp hk with hk | hk
      · exact absurd hk.symm hak
      · rw [List.map_cons, getv_cons, if_neg hak]
        exact ih k hk

/-- The `monthly_counts` dict built in the fetch loop is the association
list pairing each generated key with its fetched count, in insertion
order. -/
theorem monthly_counts_eq (fetch : List Char → List Incident) (y m : ℤ)
    (hy1 : 1 ≤ y) (hy2 : y ≤ 9999) (hm1 : 1 ≤ m) (hm2 : m ≤ 12) :
    (generate_recent_months 6 y m).foldl
        (fun d ym => upd d ym (fetch ym).length) []
      = (generate_recent_months 6 y m).map (fun k => (k, (fetch k).length))
    := by
  have := foldl_upd_fresh (fun k => (fetch k).length)
    (generate_recent_months 6 y m) [] (fun k _ => rfl)
    (months_nodup y m hy1 hy2 hm1 hm2)
  simpa using this

/-! ## Claim C7 -/

/-- C7.  The claim says the aggregation never raises for any incident list,
tallying missing/null fields under defaults.  In fact an incident whose
`location` carries `street: null` aborts the aggregate: `"street"` is
present, so the `.get("street", default)` returns `None` and the final
`.get("name", "Unknown")` raises `AttributeError`.  (With no incidents the
aggregation does complete, for contrast.) -/
theorem C7_street_null_raises :
    street_name badIncident
      = .error "AttributeError: NoneType has no attribute get"
    ∧ aggregate_6month_crime (fun _ => [badIncident]) 2025 10
      = .error "AttributeError: NoneType has no attribute get"
    ∧ (aggregate_6month_crime (fun _ => []) 2025 10).isOk = true := by
  refine ⟨rfl, rfl, rfl⟩

/-- Case analysis on the trend decision tree. -/
theorem trend_shape (a b : ℕ) (t : String)
    (ht : t = if 0 < b then
        (if (((a : ℚ) - (b : ℚ)) / (b : ℚ)) > 0.15 then "rising"
         else if (((a : ℚ) - (b : ℚ)) / (b : ℚ)) < -0.15 then "falling"
         else "stable")
      else "stable") :
    (t = "rising" ↔ 0 < b ∧ ((a : ℚ) - (b : ℚ)) / (b : ℚ) > 0.15)
    ∧ (t = "falling" ↔ 0 < b ∧ ((a : ℚ) - (b : ℚ)) / (b : ℚ) < -0.15)
    ∧ (t = "stable" ↔
        ¬(0 < b ∧ ((a : ℚ) - (b : ℚ)) / (b : ℚ) > 0.15)
        ∧ ¬(0 < b ∧ ((a : ℚ) - (b : ℚ)) / (b : ℚ) < -0.15)) := by
  subst ht
  by_cases h0 : 0 < b
  · by_cases h1 : (((a : ℚ) - (b : ℚ)) / (b : ℚ)) > 0.15
    · have h2 : ¬((((a : ℚ) - (b : ℚ)) / (b : ℚ)) < -0.15) := by
        intro h2
        have : (0.15 : ℚ) < -0.15 := lt_trans h1 h2
        norm_num at this
      simp only [h0, h1, h2, if_true, if_false, true_and]
      refine ⟨by simp [h1], by simp [h2], by simp [h1, h2]⟩
    · by_cases h2 : (((a : ℚ) - (b : ℚ)) / (b : ℚ)) < -0.15
      · simp only [h0, h1, h2, if_true, if_false, true_and]
        refine ⟨by simp [h1], by simp [h2], by simp [h1, h2]⟩
      · simp only [h0, h1, h2, if_true, if_false, true_and]
        refine ⟨by simp [h1], by simp [h2], by simp [h1, h2]⟩
  · simp only [h0, if_false, false_and]
    refine ⟨by simp [h0], by simp [h0], by simp [h0]⟩

/-- The trend of a successful aggregate, characterised by the chronological
3-month sums (helper for the C4 theorem). -/
theorem trend_rule_aux (fetch : List Char → List Incident) (y m : ℤ)
    (hy1 : 1 ≤ y) (hy2 : y ≤ 9999) (hm1 : 1 ≤ m) (hm2 : m ≤ 12)
    (agg : CrimeAgg) (hagg : aggregate_6month_crime fetch y m = .ok agg) :
    (agg.trend = "rising" ↔
      0 < monthCount fetch y m 3 + monthCount fetch y m 4
          + monthCount fetch y m 5
      ∧ (((monthCount fetch y m 0 + monthCount fetch y m 1
            + monthCount fetch y m 2 : ℕ) : ℚ)
          - ((monthCount fetch y m 3 + monthCount fetch y m 4
            + monthCount fetch y m 5 : ℕ) : ℚ))
        / ((monthCount fetch y m 3 + monthCount fetch y m 4
            + monthCount fetch y m 5 : ℕ) : ℚ) > 0.15)
    ∧ (agg.trend = "falling" ↔
      0 < monthCount fetch y m 3 + monthCount fetch y m 4
          + monthCount fetch y m 5
      ∧ (((monthCount fetch y m 0 + monthCount fetch y m 1
            + monthCount fetch y m 2 : ℕ) : ℚ)
          - ((monthCount fetch y m 3 + monthCount fetch y m 4
            + monthCount fetch y m 5 : ℕ) : ℚ))
        / ((monthCount fetch y m 3 + monthCount fetch y m 4
            + monthCount fetch y m 5 : ℕ) : ℚ) < -0.15)
    ∧ (agg.trend = "stable" ↔
      ¬(0 < monthCount fetch y m 3 + monthCount fetch y m 4
          + monthCount fetch y m 5
        ∧ (((monthCount fetch y m 0 + monthCount fetch y m 1
              + monthCount fetch y m 2 : ℕ) : ℚ)
            - ((monthCount fetch y m 3 + monthCount fetch y m 4
              + monthCount fetch y m 5 : ℕ) : ℚ))
          / ((monthCount fetch y m 3 + monthCount fetch y m 4
              + monthCount fetch y m 5 : ℕ) : ℚ) > 0.15)
      ∧ ¬(0 < monthCount fetch y m 3 + monthCount fetch y m 4
          + monthCount fetch y m 5
        ∧ (((monthCount fetch y m 0 + monthCount fetch y m 1
              + monthCount fetch y m 2 : ℕ) : ℚ)
            - ((monthCount fetch y m 3 + monthCount fetch y m 4
              + monthCount fetch y m 5 : ℕ) : ℚ))
          / ((monthCount fetch y m 3 + monthCount fetch y m 4
              + monthCount fetch y m 5 : ℕ) : ℚ) < -0.15)) := by
  unfold aggregate_6month_crime at hagg
  dsimp only at hagg
  rcases hst : streetNames ((generate_recent_months 6 y m).foldl
      (fun acc ym => acc ++ fetch ym) []) with e | st
  · rw [hst] at hagg
    exact Except.noConfusion hagg
  · rw [hst] at hagg
    have hrec := Except.ok.inj hagg
    have htrend : agg.trend = trendOf ((generate_recent_months 6 y m).foldl
        (fun d ym => upd d ym (fetch ym).length) []) := by
      rw [← hrec]
    rw [monthly_counts_eq fetch y m hy1 hy2 hm1 hm2] at htrend
    unfold trendOf at htrend
    have hkeys : keysOf ((generate_recent_months 6 y m).map
        (fun k => (k, (fetch k).length))) = generate_recent_months 6 y m := by
      simp only [keysOf, List.map_map]
      rw [show (Prod.fst ∘ fun k : List Char => (k, (fetch k).length)) = id
        from rfl, List.map_id]
    rw [hkeys, sorted_months y m hy1 hy2 hm1 hm2] at htrend
    have hM : generate_recent_months 6 y m
        = [monthKey (monthsBack y m 0).1 (monthsBack y m 0).2,
           monthKey (monthsBack y m 1).1 (monthsBack y m 1).2,
           monthKey (monthsBack y m 2).1 (monthsBack y m 2).2,
           monthKey (monthsBack y m 3).1 (monthsBack y m 3).2,
           monthKey (monthsBack y m 4).1 (monthsBack y m 4).2,
           monthKey (monthsBack y m 5).1 (monthsBack y m 5).2] := by
      rw [generate_recent_months_eq y m hm1 hm2]
      rfl
    set mcL := (generate_recent_months 6 y m).map
      (fun k => (k, (fetch k).length)) with hmc
    rw [hM] at htrend
    simp only [List.reverse_cons, List.reverse_nil, List.nil_append,
      List.cons_append, List.length_cons, List.length_nil, Nat.reduceAdd,
      Nat.reduceLeDiff, Nat.reduceSub, if_true, List.drop_succ_cons,
      List.drop_zero, List.take_succ_cons, List.take_zero, List.map_cons,
      List.map_nil, List.sum_cons, List.sum_nil, add_zero] at htrend
    rw [hmc] at htrend
    rw [getv_map_pair _ _ _ (by rw [hM]; simp),
      getv_map_pair _ _ _ (by rw [hM]; simp),
      getv_map_pair _ _ _ (by rw [hM]; simp),
      getv_map_pair _ _ _ (by rw [hM]; simp),
      getv_map_pair _ _ _ (by rw [hM]; simp),
      getv_map_pair _ _ _ (by rw [hM]; simp)] at htrend
    simp only [Option.getD_some] at htrend
    obtain ⟨i1, i2, i3⟩ := trend_shape _ _ _ htrend
    have hA : (fetch (monthKey (monthsBack y m 2).1 (monthsBack y m 2).2)).length
        + ((fetch (monthKey (monthsBack y m 1).1 (monthsBack y m 1).2)).length
          + (fetch (monthKey (monthsBack y m 0).1 (monthsBack y m 0).2)).length)
        = monthCount fetch y m 0 + monthCount fetch y m 1
          + monthCount fetch y m 2 := by
      unfold monthCount
      ring
    have hB : (fetch (monthKey (monthsBack y m 5).1 (monthsBack y m 5).2)).length
        + ((fetch (monthKey (monthsBack y m 4).1 (monthsBack y m 4).2)).length
          + (fetch (monthKey (monthsBack y m 3).1 (monthsBack y m 3).2)).length)
        = monthCount fetch y m 3 + monthCount fetch y m 4
          + monthCount fetch y m 5 := by
      unfold monthCount
      ring
    rw [hA, hB] at i1 i2 i3
    exact ⟨i1, i2, i3⟩

/-! ## Claim C4 -/

/-- C4.  For every fetch assignment, the trend of a successful aggregate is
`"rising"` iff the previous-3-months baseline is positive and the relative
change of the chronologically last three months exceeds 0.15, `"falling"`
iff it is below −0.15, and `"stable"` otherwise; in particular monthly
counts 0,0,0,10,10,10 (oldest→newest) give `"stable"` (no baseline) and
10,10,10,2,2,2 give `"falling"` (change −0.8). -/
theorem C4_trend (fetch : List Char → List Incident) (y m : ℤ)
    (hy1 : 1 ≤ y) (hy2 : y ≤ 9999) (hm1 : 1 ≤ m) (hm2 : m ≤ 12)
    (agg : CrimeAgg) (hagg : aggregate_6month_crime fetch y m = .ok agg) :
    (agg.trend = "rising" ↔
      0 < monthCount fetch y m 3 + monthCount fetch y m 4
          + monthCount fetch y m 5
      ∧ (((monthCount fetch y m 0 + monthCount fetch y m 1
            + monthCount fetch y m 2 : ℕ) : ℚ)
          - ((monthCount fetch y m 3 + monthCount fetch y m 4
            + monthCount fetch y m 5 : ℕ) : ℚ))
        / ((monthCount fetch y m 3 + monthCount fetch y m 4
            + monthCount fetch y m 5 : ℕ) : ℚ) > 0.15)
    ∧ (agg.trend = "falling" ↔
      0 < monthCount fetch y m 3 + monthCount fetch y m 4
          + monthCount fetch y m 5
      ∧ (((monthCount fetch y m 0 + monthCount fetch y m 1
            + monthCount fetch y m 2 : ℕ) : ℚ)
          - ((monthCount fetch y m 3 + monthCount fetch y m 4
            + monthCount fetch y m 5 : ℕ) : ℚ))
        / ((monthCount fetch y m 3 + monthCount fetch y m 4
            + monthCount fetch y m 5 : ℕ) : ℚ) < -0.15)
    ∧ (agg.trend = "stable" ↔
      ¬(0 < monthCount fetch y m 3 + monthCount fetch y m 4
          + monthCount fetch y m 5
        ∧ (((monthCount fetch y m 0 + monthCount fetch y m 1
              + monthCount fetch y m 2 : ℕ) : ℚ)
            - ((monthCount fetch y m 3 + monthCount fetch y m 4
              + monthCount fetch y m 5 : ℕ) : ℚ))
          / ((monthCount fetch y m 3 + monthCount fetch y m 4
              + monthCount fetch y m 5 : ℕ) : ℚ) > 0.15)
      ∧ ¬(0 < monthCount fetch y m 3 + monthCount fetch y m 4
          + monthCount fetch y m 5
        ∧ (((monthCount fetch y m 0 + monthCount fetch y m 1
              + monthCount fetch y m 2 : ℕ) : ℚ)
            - ((monthCount fetch y m 3 + monthCount fetch y m 4
              + monthCount fetch y m 5 : ℕ) : ℚ))
          / ((monthCount fetch y m 3 + monthCount fetch y m 4
              + monthCount fetch y m 5 : ℕ) : ℚ) < -0.15))
    ∧ (aggregate_6month_crime fetchStable6 2025 10).isOk = true
    ∧ (∀ a : CrimeAgg, aggregate_6month_crime fetchStable6 2025 10 = .ok a →
        a.trend = "stable")
    ∧ (aggregate_6month_crime fetchFalling6 2025 10).isOk = true
    ∧ (∀ a : CrimeAgg, aggregate_6month_crime fetchFalling6 2025 10 = .ok a →
        a.trend = "falling") := by
  obtain ⟨i1, i2, i3⟩ := trend_rule_aux fetch y m hy1 hy2 hm1 hm2 agg hagg
  refine ⟨i1, i2, i3, rfl, ?_, rfl, ?_⟩
  · intro a ha
    obtain ⟨_, _, j3⟩ := trend_rule_aux fetchStable6 2025 10 (by decide)
      (by decide) (by decide) (by decide) a ha
    apply j3.mpr
    exact ⟨fun hc => absurd hc.1 (by decide),
      fun hc => absurd hc.1 (by decide)⟩
  · intro a ha
    obtain ⟨_, j2, _⟩ := trend_rule_aux fetchFalling6 2025 10 (by decide)
      (by decide) (by decide) (by decide) a ha
    apply j2.mpr
    have c0 : monthCount fetchFalling6 2025 10 0 = 2 := by decide
    have c1 : monthCount fetchFalling6 2025 10 1 = 2 := by decide
    have c2 : monthCount fetchFalling6 2025 10 2 = 2 := by decide
    have c3 : monthCount fetchFalling6 2025 10 3 = 10 := by decide
    have c4 : monthCount fetchFalling6 2025 10 4 = 10 := by decide
    have c5 : monthCount fetchFalling6 2025 10 5 = 10 := by decide
    rw [c0, c1, c2, c3, c4, c5]
    constructor
    · norm_num
    · norm_num

/-- C4 (witness): the rule applied to six empty fetches; the trend is
`"stable"` since the baseline is zero. -/
theorem C4_witness :
    aggregate_6month_crime (fun _ => []) 2025 10 = .ok aggZero
    ∧ aggZero.trend = "stable" := by
  have h := C4_trend (fun _ => []) 2025 10 (by decide) (by decide)
    (by decide) (by decide) aggZero rfl
  refine ⟨rfl, ?_⟩
  apply (h.2.2.1).mpr
  exact ⟨fun hc => absurd hc.1 (by decide), fun hc => absurd hc.1 (by decide)⟩

/-! ## Claim C8 -/

/-- C8.  For every current date, `generate_recent_months 6` returns exactly
6 keys, the first being the current month and each subsequent key exactly
one calendar month earlier (with year rollover, per `prevMonth` and
`monthsBack`), all distinct; and whenever the aggregation completes, its
`monthly_counts` mapping contains exactly those 6 keys, in order, and no
others. -/
theorem C8_month_window (y m : ℤ) (fetch : List Char → List Incident)
    (hy1 : 1 ≤ y) (hy2 : y ≤ 9999) (hm1 : 1 ≤ m) (hm2 : m ≤ 12) :
    (generate_recent_months 6 y m).length = 6
    ∧ (generate_recent_months 6 y m).head? = some (monthKey y m)
    ∧ generate_recent_months 6 y m
        = (List.range 6).map (fun i =>
            monthKey (monthsBack y m i).1 (monthsBack y m i).2)
    ∧ (generate_recent_months 6 y m).Nodup
    ∧ (aggregate_6month_crime fetch y m).map
          (fun a => keysOf a.monthly_counts)
        = (aggregate_6month_crime fetch y m).map
            (fun _ => generate_recent_months 6 y m) := by
  refine ⟨by simp [generate_recent_months], ?_,
    generate_recent_months_eq y m hm1 hm2,
    months_nodup y m hy1 hy2 hm1 hm2, ?_⟩
  · rw [generate_recent_months_eq y m hm1 hm2]
    rfl
  · unfold aggregate_6month_crime
    dsimp only
    rcases hst : streetNames ((generate_recent_months 6 y m).foldl
        (fun acc ym => acc ++ fetch ym) []) with e | st
    · rfl
    · dsimp only [Except.map]
      congr 1
      rw [monthly_counts_eq fetch y m hy1 hy2 hm1 hm2]
      simp only [keysOf, List.map_map]
      have hid : (Prod.fst ∘ fun k : List Char => (k, (fetch k).length))
          = id := rfl
      rw [hid, List.map_id]

/-- C8 (witness): the window properties at January 2025, exercising the
year rollover into December 2024. -/
theorem C8_witness :
    (generate_recent_months 6 2025 1).length = 6
    ∧ (generate_recent_months 6 2025 1).head? = some (monthKey 2025 1)
    ∧ generate_recent_months 6 2025 1
        = (List.range 6).map (fun i =>
            monthKey (monthsBack 2025 1 i).1 (monthsBack 2025 1 i).2)
    ∧ (generate_recent_months 6 2025 1).Nodup
    ∧ (aggregate_6month_crime (fun _ => []) 2025 1).map
          (fun a => keysOf a.monthly_counts)
        = (aggregate_6month_crime (fun _ => []) 2025 1).map
            (fun _ => generate_recent_months 6 2025 1) :=
  C8_month_window 2025 1 (fun _ => []) (by decide) (by decide) (by decide)
    (by decide)

end Zoopla
